import Mathlib

/-!
Verification of `webapp/app.py` (`DeploymentRunner` and its stage-progress
machinery) against the repository specification.

The embedding mirrors the Python source: task and stage statuses are the
closed set of five strings the code assigns, modelled as an enumeration;
dictionaries become records; in-place mutation becomes explicit state
passing.  `self._stage_lookup` (a dict from stage id to list index, rebuilt
at every reset from `self.stage_state`) is modelled as lookup of the first
list entry with the given id, which agrees with the dict whenever stage ids
are distinct (they are, for both definition tables).  `time.time()` values
are passed in as explicit `now : Nat` arguments.  `determine_vm_role_usage`
reads files on disk; its result (a dict with boolean entries) is passed in
as an association list argument.  Python's `str.lower` is modelled on the
ASCII range, which agrees with the source on every keyword the tables use.
-/

namespace ProxmoxWebapp

/-- Task/stage status values used by `webapp/app.py` ("pending", "running",
"completed", "failed", "skipped"). -/
inductive Status where
  | pending
  | running
  | completed
  | failed
  | skipped
deriving DecidableEq, Repr

/-- One entry of a stage's `tasks` list: `{"label": ..., "status": ...}`. -/
structure TaskState where
  label : String
  status : Status
deriving DecidableEq, Repr

/-- One entry of `self.stage_state` as built by `_reset_state`
(app.py:529-542). -/
structure StageState where
  id : String
  title : String
  description : String
  tool : List String
  progress_event : Option String
  tasks : List TaskState
  status : Status
  note : String
  base_task_count : Nat
deriving DecidableEq, Repr

instance : Inhabited StageState :=
  ⟨{ id := "", title := "", description := "", tool := [], progress_event := none, tasks := [], status := .pending, note := "", base_task_count := 0 }⟩

/-- The mutable fields of `DeploymentRunner` (app.py:466-479). -/
structure RunnerState where
  running : Bool
  logs : List String
  stage_state : List StageState
  current_stage : Option String
  started_at : Option Nat
  finished_at : Option Nat
  return_code : Option Int
  mode : String
  role_usage : List (String × Bool)
deriving DecidableEq, Repr

/-- A static stage definition from `STAGE_DEFINITIONS` (app.py:265-391).
The `tool` field holds one label or several (the `openfaas` stage lists
two). -/
structure StageDefinition where
  id : String
  title : String
  description : String
  tool : List String
  progress_event : Option String
  requires_role : Option String
  tasks : List String
deriving DecidableEq, Repr

/-- One entry of `TERRAFORM_TASK_SEQUENCE` / `DESTROY_TASK_SEQUENCE`
(app.py:394-441). -/
structure SeqTask where
  label : String
  keywords : List String
  complete_keywords : List String
deriving DecidableEq, Repr

/- ## String helpers modelling Python's `in`, `startswith`, `strip`,
`split` and `lower` on the ASCII range. -/

/-- Whether `needle` occurs as a contiguous run inside `hay`. -/
def containsAux (needle : List Char) : List Char → Bool
  | [] => needle.isEmpty
  | c :: rest => needle.isPrefixOf (c :: rest) || containsAux needle rest

/-- Python's `needle in hay` substring test. -/
def strContains (hay needle : String) : Bool :=
  containsAux needle.data hay.data

/-- Python's `s.startswith(pre)`. -/
def strStartsWith (s pre : String) : Bool :=
  pre.data.isPrefixOf s.data

/-- ASCII lower-casing of one character (agrees with `str.lower` on the
ASCII keywords the tables use). -/
def asciiLower (c : Char) : Char :=
  if 'A' ≤ c ∧ c ≤ 'Z' then Char.ofNat (c.toNat + 32) else c

/-- Python's `s.lower()` restricted to ASCII case mapping. -/
def strLower (s : String) : String :=
  String.mk (s.data.map asciiLower)

/-- Python's `s.strip()` (whitespace at both ends). -/
def strStrip (s : String) : String :=
  String.mk (((s.data.dropWhile Char.isWhitespace).reverse.dropWhile
    Char.isWhitespace).reverse)

/-- Python's `s.strip(chars)` for an explicit character set. -/
def stripChars (cs : List Char) (s : String) : String :=
  String.mk (((s.data.dropWhile (fun c => cs.contains c)).reverse.dropWhile
    (fun c => cs.contains c)).reverse)

/-- Everything after the first occurrence of `sep`, if `sep` occurs. -/
def afterFirst (sep : List Char) : List Char → Option (List Char)
  | [] => none
  | c :: rest =>
    if sep.isPrefixOf (c :: rest) then some ((c :: rest).drop sep.length)
    else afterFirst sep rest

/-- Python's `s.split(sep, 1)[-1]`: the part after the first occurrence of
`sep`, or all of `s` when `sep` does not occur. -/
def splitAfterFirst (sep s : String) : String :=
  match afterFirst sep.data s.data with
  | some l => String.mk l
  | none => s

/-- Everything before the first occurrence of `sep`, if `sep` occurs. -/
def beforeFirst (sep : List Char) : List Char → Option (List Char)
  | [] => none
  | c :: rest =>
    if sep.isPrefixOf (c :: rest) then some []
    else (beforeFirst sep rest).map (fun l => c :: l)

/-- Python's `s.split(sep)[0]` (also `s.split(sep, 1)[0]`): the part before
the first occurrence of `sep`, or all of `s` when `sep` does not occur. -/
def splitBeforeFirst (sep s : String) : String :=
  match beforeFirst sep.data s.data with
  | some l => String.mk l
  | none => s

/-- Python's `s.split()[0]`: first maximal run of non-whitespace. -/
def firstWhitespaceToken (s : String) : String :=
  String.mk ((s.data.dropWhile Char.isWhitespace).takeWhile
    (fun c => ¬ Char.isWhitespace c))

/- ## The regex `TASK\s+\[(.+?)\]` (ANSIBLE_TASK_PATTERN, app.py:28),
used via `.search` in `_extract_ansible_task_name` (app.py:759-765). -/

/-- A character matched by the regex class `\s`. -/
def reSpace (c : Char) : Bool :=
  c == ' ' || c == '\t' || c == '\n' || c == '\r' || c == '\x0B' || c == '\x0C'

/-- Try to match `TASK\s+\[(.+?)\]` at the head of `cs`, returning the
capture group: `TASK`, then one or more `\s` characters, then `[`, then a
shortest non-empty run of non-newline characters up to a closing `]`. -/
def taskBracketAt (cs : List Char) : Option (List Char) :=
  match cs with
  | 'T' :: 'A' :: 'S' :: 'K' :: rest =>
    match rest with
    | [] => none
    | c :: _ =>
      if reSpace c then
        match rest.dropWhile reSpace with
        | '[' :: rest3 =>
          match rest3 with
          | [] => none
          | c0 :: rest4 =>
            let more := rest4.takeWhile (fun ch => ch != ']')
            if c0 != '\n' && more.all (fun ch => ch != '\n')
                && decide (more.length < rest4.length) then
              some (c0 :: more)
            else none
        | _ => none
      else none
  | _ => none

/-- `re.search`: the leftmost match of the task pattern. -/
def searchTaskName : List Char → Option (List Char)
  | [] => none
  | c :: rest =>
    match taskBracketAt (c :: rest) with
    | some g => some g
    | none => searchTaskName rest

/-- `_extract_ansible_task_name` (app.py:759-765). -/
def extractAnsibleTaskName (line : Option String) : Option String :=
  match line with
  | none => none
  | some l => (searchTaskName l.data).map (fun g => strStrip (String.mk g))

/- ## Static tables (app.py:265-460). -/

/-- `STAGE_DEFINITIONS["deploy"]` (app.py:266-364). -/
def deployStageDefinitions : List StageDefinition :=
  [ { id := "setup", title := "Initial Setup & Validation",
      description := "Checks prerequisites, terraform.tfvars, and SSH keys.",
      tool := ["Setup"], progress_event := none, requires_role := none,
      tasks := ["Check prerequisites", "Validate terraform.tfvars",
                "Load validated variables", "Ensure SSH keys"] },
    { id := "terraform", title := "Terraform Deployment",
      description := "Creates or updates the Proxmox VMs through Terraform/OpenTofu.",
      tool := ["Terraform"], progress_event := some "terraform_step",
      requires_role := none,
      tasks := ["Initialize & validate", "Create execution plan",
                "Apply infrastructure"] },
    { id := "nat", title := "NAT Rules",
      description := "Configures NAT and port forwarding on the Proxmox host.",
      tool := ["Ansible"], progress_event := some "ansible_task",
      requires_role := none,
      tasks := ["Build inventories", "Configure SSH NAT rules",
                "Configure service NAT rules", "Validate NAT connectivity",
                "Summarize port mappings"] },
    { id := "vm", title := "VM Preparation",
      description := "Runs the base VM configuration playbook.",
      tool := ["Ansible"], progress_event := some "ansible_task",
      requires_role := none,
      tasks := ["Update package cache", "Install base packages",
                "Configure firewall", "Create system directories",
                "Apply timezone", "Reboot if required"] },
    { id := "k3s", title := "K3s Installation",
      description := "Installs the lightweight Kubernetes distribution.",
      tool := ["Ansible"], progress_event := some "ansible_task",
      requires_role := some "k3s",
      tasks := ["Install K3s binaries", "Start K3s service",
                "Verify API server", "Fetch kubeconfig",
                "Update kubeconfig endpoint", "Set kubeconfig permissions"] },
    { id := "docker", title := "Docker Installation",
      description := "Installs Docker Engine on the nodes.",
      tool := ["Ansible"], progress_event := some "ansible_task",
      requires_role := some "docker",
      tasks := ["Install prerequisites", "Deploy Docker packages",
                "Enable Docker services"] },
    { id := "openfaas", title := "OpenFaaS Installation",
      description := "Deploys OpenFaaS workloads on K3s.",
      tool := ["Ansible", "Helm"], progress_event := some "ansible_task",
      requires_role := none,
      tasks := ["Install Helm if needed", "Add OpenFaaS repo",
                "Install OpenFaaS chart", "Wait for gateway pods",
                "Retrieve admin password", "Verify OpenFaaS pods"] } ]

/-- `STAGE_DEFINITIONS["destroy"]` (app.py:365-390). -/
def destroyStageDefinitions : List StageDefinition :=
  [ { id := "destroy_nat", title := "Remove NAT Rules",
      description := "Reverts NAT and port forwarding rules on Proxmox.",
      tool := ["Ansible"], progress_event := some "ansible_task",
      requires_role := none,
      tasks := ["Load inventories", "Remove SSH NAT rules",
                "Remove service NAT rules", "Validate removal"] },
    { id := "destroy_tf", title := "Terraform Destroy",
      description := "Destroys all Terraform-managed infrastructure.",
      tool := ["Terraform"], progress_event := some "terraform_destroy",
      requires_role := none,
      tasks := ["Select Terraform/OpenTofu", "Destroy VM resources"] } ]

/-- `STAGE_DEFINITIONS.get(mode, [])` as used by `_reset_state`
(app.py:524). -/
def stageDefinitionsFor (mode : String) : List StageDefinition :=
  if mode = "deploy" then deployStageDefinitions
  else if mode = "destroy" then destroyStageDefinitions
  else []

/-- `mode in STAGE_DEFINITIONS` (app.py:487): the table has exactly the
keys "deploy" and "destroy". -/
def validMode (mode : String) : Prop :=
  mode = "deploy" ∨ mode = "destroy"

instance (mode : String) : Decidable (validMode mode) := by
  unfold validMode
  infer_instance

/-- `DEFAULT_MODE` (app.py:392). -/
def DEFAULT_MODE : String := "deploy"

/-- `TERRAFORM_TASK_SEQUENCE` (app.py:394-413). -/
def TERRAFORM_TASK_SEQUENCE : List SeqTask :=
  [ { label := "Initialize & validate",
      keywords := ["Initializing", "Validating configuration"],
      complete_keywords := ["✓ Configuration valid"] },
    { label := "Create execution plan",
      keywords := ["Planning deployment", "PLAN SUMMARY", "✓ No changes needed"],
      complete_keywords := ["✓ Plan created", "✓ No changes needed"] },
    { label := "Apply infrastructure",
      keywords := ["Creating VM", "[INFO] Creating"],
      complete_keywords := ["✓ Infrastructure created successfully"] } ]

/-- `TERRAFORM_KEYWORDS` (app.py:414-417); the Python set is only ever used
through membership of some element in a line, so a list with the same
elements is an equivalent model. -/
def TERRAFORM_KEYWORDS : List String :=
  (TERRAFORM_TASK_SEQUENCE.map
    (fun t => t.keywords ++ t.complete_keywords)).flatten

/-- `DESTROY_TASK_SEQUENCE` (app.py:419-441). -/
def DESTROY_TASK_SEQUENCE : List SeqTask :=
  [ { label := "Select Terraform/OpenTofu",
      keywords := [],
      complete_keywords := ["Using Terraform", "Using OpenTofu"] },
    { label := "Destroy VM resources",
      keywords := ["Performing terraform destroy", "Performing tofu destroy",
                   "Performing terraform destroy -auto-approve",
                   "Performing tofu destroy -auto-approve",
                   "Destroying...", "destroy -auto-approve"],
      complete_keywords := ["Destroy complete!", "Destroy complete",
                            "Destruction complete"] } ]

/-- `DESTROY_KEYWORDS` (app.py:442-446), including the two extra entries
added after the loop. -/
def DESTROY_KEYWORDS : List String :=
  (DESTROY_TASK_SEQUENCE.map
    (fun t => t.keywords ++ t.complete_keywords)).flatten
    ++ ["Destroying...", "Destruction complete"]

/-- `HEADER_STAGE_MAP` (app.py:448-451) in insertion order. -/
def HEADER_STAGE_MAP : List (String × String) :=
  [("INITIAL SETUP AND VALIDATION", "setup"),
   ("TERRAFORM DEPLOYMENT", "terraform")]

/-- `ANSIBLE_STAGE_KEYWORDS` (app.py:453-460) in insertion order. -/
def ANSIBLE_STAGE_KEYWORDS : List (String × String) :=
  [("NAT configuration", "nat"),
   ("VM configuration", "vm"),
   ("K3s installation", "k3s"),
   ("Docker installation", "docker"),
   ("OpenFaaS installation", "openfaas"),
   ("NAT rule removal", "destroy_nat")]

/- ## Generic list update used to model in-place mutation of the stage
found through `self._stage_lookup[stage_id]`. -/

/-- Replace the first element satisfying `p` by its image under `f`
(no-op when no element satisfies `p`). -/
def updateFirst {α : Type} (p : α → Prop) [DecidablePred p] (f : α → α) :
    List α → List α
  | [] => []
  | x :: xs => if p x then f x :: xs else x :: updateFirst p f xs

/-- `stage_id in self._stage_lookup`: the lookup keys are exactly the ids
of `self.stage_state`. -/
def hasStageId (s : RunnerState) (sid : String) : Prop :=
  ∃ st ∈ s.stage_state, st.id = sid

instance (s : RunnerState) (sid : String) : Decidable (hasStageId s sid) :=
  List.decidableBEx _ s.stage_state

/-- Mutate the stage `self.stage_state[self._stage_lookup[sid]]` in place. -/
def updateStage (s : RunnerState) (sid : String)
    (f : StageState → StageState) : RunnerState :=
  { s with stage_state := updateFirst (fun st => st.id = sid) f s.stage_state }

/-- Find a stage by id (used only to state theorems about results). -/
def stageById (s : RunnerState) (sid : String) : Option StageState :=
  s.stage_state.find? (fun st => decide (st.id = sid))

/- ## `_mark_tasks` (app.py:937-966). -/

/-- The four action strings `_mark_tasks` is called with. -/
inductive MarkAction where
  | start
  | complete
  | fail
  | skip
deriving DecidableEq, Repr

/-- The `"start"` action: set the first pending task running (app.py:942-947). -/
def startFirstPending : List TaskState → List TaskState
  | [] => []
  | t :: ts =>
    if t.status = .pending then { t with status := .running } :: ts
    else t :: startFirstPending ts

/-- `_mark_tasks` on the task list. -/
def markTasksList (action : MarkAction) (tasks : List TaskState) :
    List TaskState :=
  match action with
  | .start => startFirstPending tasks
  | .complete => tasks.map (fun t =>
      if t.status = .pending ∨ t.status = .running then
        { t with status := .completed } else t)
  | .fail => tasks.map (fun t =>
      if t.status = .running then { t with status := .failed }
      else if t.status = .pending then { t with status := .skipped } else t)
  | .skip => tasks.map (fun t =>
      if t.status = .pending then { t with status := .skipped } else t)

/-- `_mark_tasks(stage, action)` (app.py:937-966), including the early
return on an empty task list. -/
def markTasks (action : MarkAction) (st : StageState) : StageState :=
  if st.tasks.isEmpty then st
  else { st with tasks := markTasksList action st.tasks }

/- ## `_advance_task` (app.py:712-757). -/

/-- The unnamed branch (app.py:740-752): complete the first running task
and start the next pending task after it. -/
def completeFirstRunning : List TaskState → List TaskState
  | [] => []
  | t :: ts =>
    if t.status = .running then
      { t with status := .completed } :: startFirstPending ts
    else t :: completeFirstRunning ts

/-- `_advance_task(stage, task_name)` (app.py:712-757). -/
def advanceTask (task_name : Option String) (st : StageState) : StageState :=
  if st.tasks.isEmpty ∧ task_name = none then st
  else
    match task_name with
    | some name =>
      -- complete current running tasks before starting a new one
      let tasks1 := st.tasks.map (fun t =>
        if t.status = .running then { t with status := .completed } else t)
      match tasks1.find? (fun t =>
          decide (t.label = name) && decide (t.status = Status.running)) with
      | some _ => { st with tasks := tasks1 }
      | none =>
        let duplicate_count :=
          (tasks1.filter (fun t => strStartsWith t.label name)).length
        let label :=
          if duplicate_count ≠ 0 then
            name ++ " (" ++ toString (duplicate_count + 1) ++ ")"
          else name
        { st with tasks := tasks1 ++ [{ label := label, status := .running }] }
    | none =>
      if st.tasks.any (fun t => decide (t.status = Status.running)) then
        { st with tasks := completeFirstRunning st.tasks }
      else
        { st with tasks := startFirstPending st.tasks }

/- ## `_ensure_base_task_progress` (app.py:794-815). -/

/-- The loop `for i in range(base_count)` of `_ensure_base_task_progress`,
walking the task list with a position counter `i`; the loop breaks at
`target` and never reads past `base` (`base ≤ tasks.length` in every
reachable state, so the Python indexing never faults). -/
def ensureBaseGo (target : Nat) (complete : Bool) (base : Nat) :
    Nat → List TaskState → List TaskState
  | _, [] => []
  | i, t :: ts =>
    if i ≥ base then t :: ts
    else if i < target then
      (if t.status ≠ .completed then { t with status := .completed } else t)
        :: ensureBaseGo target complete base (i + 1) ts
    else if i = target then
      if complete then
        { t with status := .completed } ::
          (match ts with
           | [] => ([] : List TaskState)
           | t2 :: ts2 =>
             if i + 1 < base ∧ t2.status = .pending then
               { t2 with status := .running } :: ts2
             else t2 :: ts2)
      else
        (if t.status ≠ .completed then { t with status := .running } else t)
          :: ts
    else t :: ts

/-- `_ensure_base_task_progress(stage, target_index, complete, sequence)`
(app.py:794-815).  Every stage entry built by `_reset_state` carries a
`base_task_count`, so the `None` fallback `min(len(tasks), len(sequence))`
is dead code here; the `sequence` argument only feeds that fallback. -/
def ensureBaseTaskProgress (target_index : Nat) (complete : Bool)
    (_sequence : List SeqTask) (st : StageState) : StageState :=
  if target_index ≥ st.base_task_count then st
  else { st with
         tasks := ensureBaseGo target_index complete st.base_task_count 0 st.tasks }

/- ## Terraform progress (app.py:767-856). -/

/-- The `for idx, config in enumerate(TERRAFORM_TASK_SEQUENCE)` loop of
`_advance_terraform_task`: the first config whose keyword set (checked
before its completion set) hits the line wins. -/
def tfFind (line : String) : Nat → List SeqTask → Option (Nat × SeqTask × Bool)
  | _, [] => none
  | idx, c :: rest =>
    if c.keywords.any (fun k => strContains line k) then some (idx, c, false)
    else if c.complete_keywords.any (fun k => strContains line k) then
      some (idx, c, true)
    else tfFind line (idx + 1) rest

/-- `_complete_dynamic_tasks` (app.py:851-856). -/
def completeDynamicTasks (st : StageState) : StageState :=
  let base_count := st.base_task_count
  { st with tasks :=
      st.tasks.take base_count ++ (st.tasks.drop base_count).map (fun t =>
        if t.status = .pending ∨ t.status = .running then
          { t with status := .completed } else t) }

/-- `_add_creation_task` (app.py:817-849). -/
def addCreationTask (line : String) (st : StageState) : StageState :=
  let base_count := st.base_task_count
  if base_count = 0 then st
  else
    -- mark base apply task as running
    let st1 := ensureBaseTaskProgress (min (base_count - 1) 2) false
      TERRAFORM_TASK_SEQUENCE st
    -- complete any currently running creation task
    let tasks1 := st1.tasks.take base_count
      ++ (st1.tasks.drop base_count).map (fun t =>
        if t.status = .running then { t with status := .completed } else t)
    let label0 := stripChars [' ', '.', ':'] (splitAfterFirst "Creating" line)
    let label1 := if label0 = "" then "resource" else label0
    let base_label := "Creating " ++ label1
    let existing := ((tasks1.drop base_count).filter (fun t =>
      strStartsWith t.label base_label)).map (fun t => t.label)
    let task_label :=
      if base_label ∈ existing then
        base_label ++ " ("
          ++ toString ((existing.filter (fun lab =>
               strStartsWith lab base_label)).length + 1) ++ ")"
      else base_label
    { st1 with tasks := tasks1 ++ [{ label := task_label, status := .running }] }

/-- `_advance_terraform_task(stage, line)` (app.py:767-792). -/
def advanceTerraformTask (line : Option String) (st : StageState) : StageState :=
  match line with
  | none => st
  | some l =>
    if st.tasks.isEmpty then st
    else
      match tfFind l 0 TERRAFORM_TASK_SEQUENCE with
      | none => st
      | some (idx, _, false) =>
        let st1 := ensureBaseTaskProgress idx false TERRAFORM_TASK_SEQUENCE st
        if strContains l "[INFO] Creating" then addCreationTask l st1 else st1
      | some (idx, c, true) =>
        let st1 := ensureBaseTaskProgress idx true TERRAFORM_TASK_SEQUENCE st
        if c.label = "Apply infrastructure" then completeDynamicTasks st1
        else st1

/- ## Destroy progress (app.py:858-935). -/

/-- `_complete_destroy_dynamic_tasks` (app.py:930-935). -/
def completeDestroyDynamicTasks (st : StageState) : StageState :=
  let base_count := st.base_task_count
  { st with tasks :=
      st.tasks.take base_count ++ (st.tasks.drop base_count).map (fun t =>
        if t.status = .pending ∨ t.status = .running then
          { t with status := .completed } else t) }

/-- The `for idx, config in enumerate(DESTROY_TASK_SEQUENCE)` loop of
`_advance_destroy_task` (app.py:866-880); unlike the terraform loop it has
no early return, so every config is examined. -/
def destroyLoop (line_lower : String) :
    Nat → List SeqTask → StageState → StageState
  | _, [], st => st
  | idx, c :: rest, st =>
    let st1 :=
      if c.keywords.any (fun k => strContains line_lower (strLower k)) then
        ensureBaseTaskProgress idx false DESTROY_TASK_SEQUENCE st
      else st
    let st2 :=
      if c.complete_keywords.any (fun k =>
          strContains line_lower (strLower k)) then
        let st' := ensureBaseTaskProgress idx true DESTROY_TASK_SEQUENCE st1
        if c.label = "Destroy VM resources" then
          completeDestroyDynamicTasks st'
        else st'
      else st1
    destroyLoop line_lower (idx + 1) rest st2

/-- `_add_destroy_task` (app.py:887-919).  The call site guarantees the
line contains "Destroying...", so `line.strip().split()[0]` cannot fault;
the model extracts the first whitespace-delimited token. -/
def addDestroyTask (line : String) (st : StageState) : StageState :=
  let base_count := st.base_task_count
  if base_count = 0 then st
  else
    let st1 := ensureBaseTaskProgress
      (min (base_count - 1) (DESTROY_TASK_SEQUENCE.length - 1)) false
      DESTROY_TASK_SEQUENCE st
    let tasks1 := st1.tasks.take base_count
      ++ (st1.tasks.drop base_count).map (fun t =>
        if t.status = .running then { t with status := .completed } else t)
    let resource :=
      if strContains line ": Destroying" then
        strStrip (splitBeforeFirst ": Destroying" line)
      else firstWhitespaceToken line
    let base_label := "Destroying " ++ resource
    let existing := ((tasks1.drop base_count).filter (fun t =>
      strStartsWith t.label base_label)).map (fun t => t.label)
    let label :=
      if base_label ∈ existing then
        base_label ++ " ("
          ++ toString ((existing.filter (fun lab =>
               strStartsWith lab base_label)).length + 1) ++ ")"
      else base_label
    { st1 with tasks := tasks1 ++ [{ label := label, status := .running }] }

/-- `_complete_matching_destroy_task` (app.py:921-928). -/
def completeMatchingDestroyTask (line : String) (st : StageState) : StageState :=
  let base_count := st.base_task_count
  let resource := strStrip (splitBeforeFirst ":" line)
  let pre := "Destroying " ++ resource
  { st with tasks :=
      st.tasks.take base_count ++ (st.tasks.drop base_count).map (fun t =>
        if strStartsWith t.label pre then { t with status := .completed }
        else t) }

/-- `_advance_destroy_task(stage, line)` (app.py:858-885). -/
def advanceDestroyTask (line : Option String) (st : StageState) : StageState :=
  match line with
  | none => st
  | some l =>
    if st.tasks.isEmpty then st
    else
      let line_lower := strLower l
      let st1 := destroyLoop line_lower 0 DESTROY_TASK_SEQUENCE st
      if strContains l "Destroying..." then addDestroyTask l st1
      else if strContains l "Destruction complete"
          || strContains l "Destroy complete" then
        completeMatchingDestroyTask l st1
      else st1

/- ## Runner operations (app.py:481-710). -/

/-- `_record_progress_event(event_type, line)` (app.py:697-710). -/
def recordProgressEvent (event_type : String) (line : Option String)
    (s : RunnerState) : RunnerState :=
  match s.current_stage with
  | none => s
  | some c =>
    if hasStageId s c then
      updateStage s c (fun st =>
        if st.progress_event = some event_type then
          if event_type = "ansible_task" then
            advanceTask (extractAnsibleTaskName line) st
          else if event_type = "terraform_step" then
            advanceTerraformTask line st
          else if event_type = "terraform_destroy" then
            advanceDestroyTask line st
          else st
        else st)
    else s

/-- `_start_stage(stage_id)` (app.py:643-656). -/
def startStage (stage_id : String) (s : RunnerState) : RunnerState :=
  if hasStageId s stage_id then
    let s1 :=
      match s.current_stage with
      | some c =>
        if c ≠ stage_id then
          updateStage s c (fun st =>
            markTasks .complete { st with status := .completed, note := "Finished." })
        else s
      | none => s
    let s2 := updateStage s1 stage_id (fun st =>
      markTasks .start { st with status := .running, note := "In progress..." })
    { s2 with current_stage := some stage_id }
  else s

/-- `_complete_stage(stage_id, status, note)` (app.py:658-672). -/
def completeStage (stage_id : String) (status : Status) (note : String)
    (s : RunnerState) : RunnerState :=
  if hasStageId s stage_id then
    let s1 := updateStage s stage_id (fun st =>
      let st1 := { st with status := status, note := note }
      if status = .completed then markTasks .complete st1
      else if status = .failed then markTasks .fail st1
      else if status = .skipped then markTasks .skip st1
      else st1)
    if s1.current_stage = some stage_id then { s1 with current_stage := none }
    else s1
  else s

/-- `_finalize_run(success)` (app.py:674-695). -/
def finalizeRun (success : Bool) (now : Nat) (s : RunnerState) : RunnerState :=
  let s1 :=
    match s.current_stage with
    | some c =>
      let s' := updateStage s c (fun st =>
        let st1 := { st with
          status := if success then Status.completed else Status.failed,
          note := if success then "Finished." else "Deployment stopped." }
        if success then markTasks .complete st1 else markTasks .fail st1)
      { s' with current_stage := none }
    | none => s
  let s2 := { s1 with stage_state := s1.stage_state.map (fun (st : StageState) =>
      if st.status = Status.pending then
        markTasks .skip { st with status := .skipped,
                                  note := "Not executed in this run." }
      else st) }
  { s2 with running := false, finished_at := some now }

/-- `_append_log(line)` (app.py:553-558): keep the last 200 log lines. -/
def appendLog (line : String) (s : RunnerState) : RunnerState :=
  let logs := s.logs ++ [line]
  { s with logs := if logs.length > 200 then logs.drop (logs.length - 200)
                   else logs }

/-- The classification of a line by the `for label, stage_id in
ANSIBLE_STAGE_KEYWORDS.items()` loop of `_handle_line` (app.py:615-626). -/
inductive AnsibleEvent where
  | startEvt (sid : String)
  | completedEvt (sid : String)
  | failedEvt (sid : String)
deriving DecidableEq, Repr

/-- The header loop of `_handle_line` (app.py:609-612). -/
def findHeaderStage (line : String) :
    List (String × String) → Option String
  | [] => none
  | (header, sid) :: rest =>
    if strContains line header then some sid
    else findHeaderStage line rest

/-- The Ansible-event loop of `_handle_line` (app.py:615-626). -/
def findAnsibleEvent (line : String) :
    List (String × String) → Option AnsibleEvent
  | [] => none
  | (label, sid) :: rest =>
    if strContains line ("Running Ansible " ++ label) then
      some (.startEvt sid)
    else if strContains line ("Ansible " ++ label ++ " completed successfully") then
      some (.completedEvt sid)
    else if strContains line ("Ansible " ++ label ++ " failed")
        || strContains line (label ++ " failed") then
      some (.failedEvt sid)
    else findAnsibleEvent line rest

/-- `_handle_line(line)` (app.py:603-641). -/
def handleLine (line : String) (s : RunnerState) : RunnerState :=
  let s0 := appendLog line s
  let s1 :=
    if strContains line "TASK [" then
      recordProgressEvent "ansible_task" (some line) s0
    else s0
  match findHeaderStage line HEADER_STAGE_MAP with
  | some sid => startStage sid s1
  | none =>
    match findAnsibleEvent line ANSIBLE_STAGE_KEYWORDS with
    | some (.startEvt sid) => startStage sid s1
    | some (.completedEvt sid) => completeStage sid .completed "Finished." s1
    | some (.failedEvt sid) =>
      completeStage sid .failed "Failed. Check deployment logs." s1
    | none =>
      let s2 :=
        if TERRAFORM_KEYWORDS.any (fun k => strContains line k) then
          recordProgressEvent "terraform_step" (some line) s1
        else s1
      let s3 :=
        if DESTROY_KEYWORDS.any (fun k => strContains line k) then
          recordProgressEvent "terraform_destroy" (some line) s2
        else s2
      if strContains line "Performing" && strContains (strLower line) "destroy" then
        startStage "destroy_tf" s3
      else if strContains line "Deployment completed successfully" then
        let s4 :=
          match s3.current_stage with
          | some c => completeStage c .completed "Finished." s3
          | none => s3
        appendLog "All stages completed." s4
      else s3

/-- `self.role_usage.get(required_role, False)` (app.py:527). -/
def roleGet (usage : List (String × Bool)) (r : String) : Bool :=
  match usage.find? (fun p => decide (p.1 = r)) with
  | some p => p.2
  | none => false

/-- One `stage_entry` built by the `_reset_state` loop (app.py:529-542). -/
def buildStageEntry (d : StageDefinition) : StageState :=
  let tasks := d.tasks.map (fun label =>
    ({ label := label, status := Status.pending } : TaskState))
  { id := d.id, title := d.title, description := d.description,
    tool := d.tool, progress_event := d.progress_event, tasks := tasks,
    status := .pending, note := "Waiting to start.",
    base_task_count := tasks.length }

/-- The `for stage in definitions` loop of `_reset_state` (app.py:525-543),
skipping stages whose `requires_role` is unsatisfied. -/
def buildStages (usage : List (String × Bool)) :
    List StageDefinition → List StageState
  | [] => []
  | d :: rest =>
    match d.requires_role with
    | some r =>
      if roleGet usage r then buildStageEntry d :: buildStages usage rest
      else buildStages usage rest
    | none => buildStageEntry d :: buildStages usage rest

/-- `_reset_state` (app.py:522-551). -/
def resetState (s : RunnerState) : RunnerState :=
  { s with
    stage_state := buildStages s.role_usage (stageDefinitionsFor s.mode),
    logs := [], current_stage := none, started_at := none,
    finished_at := none, return_code := none }

/-- `start(mode)` (app.py:481-498); `usage` is the value
`determine_vm_role_usage()` returns and `now` is `time.time()`.  The
asynchronous worker thread spawned at app.py:494-497 is not part of the
synchronous contract modelled here. -/
def start (mode : String) (usage : List (String × Bool)) (now : Nat)
    (s : RunnerState) : Bool × RunnerState :=
  if s.running then (false, s)
  else
    let mode1 := if validMode mode then mode else DEFAULT_MODE
    let s1 := { s with mode := mode1, role_usage := usage }
    let s2 := resetState s1
    let s3 := { s2 with running := true, started_at := some now }
    (true, s3)

/-- The state of a freshly reset runner in the given mode: `__init__`
(app.py:466-479) followed by the `_reset_state` that `start` performs for
that mode. -/
def mkRunner (mode : String) (usage : List (String × Bool)) : RunnerState :=
  resetState
    { running := false, logs := [], stage_state := [], current_stage := none,
      started_at := none, finished_at := none, return_code := none,
      mode := mode, role_usage := usage }

/-- Feed a sequence of already-stripped non-empty lines through
`_handle_line`, in order (the read loop of `_run_deploy`, app.py:583-587). -/
def applyLines (lines : List String) (s : RunnerState) : RunnerState :=
  lines.foldl (fun acc l => handleLine l acc) s

/-- The `finally` block of `_run_deploy` (app.py:588-601): record the exit
code, fail the active stage on a non-zero exit, then finalize. -/
def streamEnd (return_code : Int) (now : Nat) (s : RunnerState) : RunnerState :=
  let success : Bool := return_code == 0
  let s1 := { s with return_code := some return_code }
  let s2 :=
    if success then s1
    else
      match s1.current_stage with
      | some c =>
        appendLog ("deploy.py exited with code " ++ toString return_code)
          (completeStage c .failed "deploy.py exited abruptly." s1)
      | none => s1
  finalizeRun success now s2

/- ## Concrete states and spec-side definitions used by the claims -/

/-- A role-usage map with the k3s role active and the docker role inactive
(the default fallback of `determine_vm_role_usage`, app.py:43). -/
def roleUsageKD : List (String × Bool) := [("k3s", true), ("docker", false)]

/-- Scenario A of the spec: the five terraform lines fed from a fresh
deploy-mode reset. -/
def terraformScenarioState : RunnerState :=
  applyLines
    ["=== TERRAFORM DEPLOYMENT ===",
     "Initializing",
     "✓ Configuration valid",
     "Planning deployment",
     "✓ No changes needed"]
    (mkRunner "deploy" roleUsageKD)

/-- Scenario B of the spec: the K3s stage lines fed from a fresh
deploy-mode reset with the k3s role active. -/
def k3sScenarioState : RunnerState :=
  applyLines
    ["Running Ansible K3s installation",
     "TASK [Install K3s binaries]",
     "TASK [Start K3s service]",
     "Ansible K3s installation completed successfully"]
    (mkRunner "deploy" roleUsageKD)

/-- The Terraform header line fed twice from a fresh deploy-mode reset. -/
def repeatedHeaderState : RunnerState :=
  applyLines
    ["=== TERRAFORM DEPLOYMENT ===", "=== TERRAFORM DEPLOYMENT ==="]
    (mkRunner "deploy" roleUsageKD)

/-- `BuildPlan` as the specification words it: filter the mode's stage
definition list by the role predicate, then materialize each retained
stage with all tasks pending.  This is the spec-side counterpart of
`_reset_state`'s loop, used to state the refinement claim. -/
def buildPlanSpec (mode : String) (usage : List (String × Bool)) :
    List StageState :=
  ((stageDefinitionsFor mode).filter (fun d =>
    match d.requires_role with
    | none => true
    | some r => roleGet usage r)).map buildStageEntry

/-- The C1 invariant: at most one stage runs, and `current_stage` is set
exactly when a running stage exists and names its id. -/
def RunningInvariant (s : RunnerState) : Prop :=
  s.stage_state.countP (fun st => decide (st.status = Status.running)) ≤ 1 ∧
  (∀ c, s.current_stage = some c →
    ∃ st ∈ s.stage_state, st.id = c ∧ st.status = Status.running) ∧
  (∀ st ∈ s.stage_state, st.status = Status.running →
    s.current_stage = some st.id)

/- ## Invariants -/

/-- A terminal status: completed, failed or skipped. -/
def terminalStatus (x : Status) : Prop :=
  x = .completed ∨ x = .failed ∨ x = .skipped

instance (x : Status) : Decidable (terminalStatus x) := by
  unfold terminalStatus
  infer_instance

/-- The dynamic tasks of a stage (those at or beyond `base`) are never
pending and at most one of them is running. -/
def TasksDynOK (base : Nat) (tasks : List TaskState) : Prop :=
  (∀ t ∈ tasks.drop base, t.status ≠ Status.pending) ∧
  (tasks.drop base).countP (fun t => decide (t.status = Status.running)) ≤ 1

/-- Structural well-formedness of one stage's task bookkeeping. -/
def StageTasksOK (st : StageState) : Prop :=
  st.base_task_count ≤ st.tasks.length ∧
  TasksDynOK st.base_task_count st.tasks

/-- Per-stage invariant, relative to the runner's `current_stage`. -/
def StageWF (cur : Option String) (st : StageState) : Prop :=
  (st.status = .running → cur = some st.id) ∧
  (st.status = .pending → ∀ t ∈ st.tasks, t.status = .pending) ∧
  (terminalStatus st.status → ∀ t ∈ st.tasks, terminalStatus t.status) ∧
  StageTasksOK st

/-- Well-formedness of a runner state: stage ids are distinct, the current
stage (when set) exists and is running, and every stage satisfies the
per-stage invariant. -/
def WF (s : RunnerState) : Prop :=
  (s.stage_state.map (fun st => st.id)).Nodup ∧
  (∀ c, s.current_stage = some c →
    ∃ st ∈ s.stage_state, st.id = c ∧ st.status = .running) ∧
  (∀ st ∈ s.stage_state, StageWF s.current_stage st)

/-- A task-level progress transform: it keeps the stage's id, status and
base task count, and preserves structural task well-formedness. -/
def PreservesStage (f : StageState → StageState) : Prop :=
  ∀ st, (f st).id = st.id ∧ (f st).status = st.status ∧
    (f st).base_task_count = st.base_task_count ∧
    (StageTasksOK st → StageTasksOK (f st))

/-- Every stage has a terminal status, and so do all its tasks (the state
of a finalized run). -/
def AllTerminal (s : RunnerState) : Prop :=
  ∀ st ∈ s.stage_state, terminalStatus st.status ∧
    ∀ t ∈ st.tasks, terminalStatus t.status

/- ## Generic list lemmas -/

theorem map_noop {α : Type} {f : α → α} :
    ∀ {l : List α}, (∀ x ∈ l, f x = x) → l.map f = l
  | [], _ => rfl
  | x :: xs, h => by
    simp only [List.map_cons, h x (List.mem_cons_self x xs)]
    rw [map_noop (fun y hy => h y (List.mem_cons_of_mem x hy))]

theorem length_updateFirst {α : Type} (p : α → Prop) [DecidablePred p]
    (f : α → α) : ∀ (l : List α), (updateFirst p f l).length = l.length
  | [] => rfl
  | x :: xs => by
    unfold updateFirst
    split
    · rfl
    · simp [length_updateFirst p f xs]

/-- Under distinct ids, mutating the first stage with a given id is the
same as mutating every stage with that id. -/
theorem updateFirst_id_eq_map (sid : String) (f : StageState → StageState) :
    ∀ (l : List StageState), (l.map (fun st => st.id)).Nodup →
      updateFirst (fun st => st.id = sid) f l
        = l.map (fun st => if st.id = sid then f st else st)
  | [], _ => rfl
  | x :: xs, hn => by
    simp only [List.map_cons, List.nodup_cons] at hn
    by_cases hx : x.id = sid
    · simp only [updateFirst, hx, if_pos trivial, if_true, List.map_cons]
      have hxs : xs.map (fun st => if st.id = sid then f st else st) = xs := by
        apply map_noop
        intro y hy
        have : y.id ≠ sid := by
          intro hcontra
          have hmem : y.id ∈ xs.map (fun st => st.id) :=
            List.mem_map_of_mem (fun st => st.id) hy
          rw [hcontra, ← hx] at hmem
          exact hn.1 hmem
        simp [this]
      simp [hxs]
    · simp only [updateFirst, hx, List.map_cons, if_false, if_neg hx]
      rw [updateFirst_id_eq_map sid f xs hn.2]

theorem stage_id_inj :
    ∀ {l : List StageState}, (l.map (fun st => st.id)).Nodup →
      ∀ {x y : StageState}, x ∈ l → y ∈ l → x.id = y.id → x = y := by
  intro l
  induction l with
  | nil => intro _ x y hx; cases hx
  | cons z zs ih =>
    intro hn x y hx hy hxy
    simp only [List.map_cons, List.nodup_cons] at hn
    rcases List.mem_cons.mp hx with hx1 | hx2
    · rcases List.mem_cons.mp hy with hy1 | hy2
      · rw [hx1, hy1]
      · exfalso
        apply hn.1
        rw [hx1] at hxy
        exact hxy ▸ List.mem_map_of_mem (fun st => st.id) hy2
    · rcases List.mem_cons.mp hy with hy1 | hy2
      · exfalso
        apply hn.1
        rw [hy1] at hxy
        exact hxy ▸ List.mem_map_of_mem (fun st => st.id) hx2
      · exact ih hn.2 hx2 hy2 hxy

theorem countP_running_le_one {c : String} :
    ∀ {l : List StageState}, (l.map (fun st => st.id)).Nodup →
      (∀ x ∈ l, x.status = .running → x.id = c) →
      l.countP (fun st => decide (st.status = Status.running)) ≤ 1 := by
  intro l
  induction l with
  | nil => intro _ _; simp
  | cons x xs ih =>
    intro hn hall
    simp only [List.map_cons, List.nodup_cons] at hn
    rw [List.countP_cons]
    by_cases hx : x.status = Status.running
    · have hxc : x.id = c := hall x (List.mem_cons_self x xs) hx
      have hnone : xs.countP (fun st => decide (st.status = Status.running)) = 0 := by
        rw [List.countP_eq_zero]
        intro y hy hyr
        have hyc : y.id = c :=
          hall y (List.mem_cons_of_mem x hy) (by simpa using hyr)
        have hmem : y.id ∈ xs.map (fun st => st.id) :=
          List.mem_map_of_mem (fun st => st.id) hy
        rw [hyc, ← hxc] at hmem
        exact hn.1 hmem
      simp [hnone, hx]
    · have := ih hn.2 (fun y hy => hall y (List.mem_cons_of_mem x hy))
      simp [hx]
      omega

/- ## Task-level lemmas -/

theorem startFirstPending_length :
    ∀ (l : List TaskState), (startFirstPending l).length = l.length
  | [] => rfl
  | t :: ts => by
    unfold startFirstPending
    split <;> simp [startFirstPending_length ts]

theorem startFirstPending_of_no_pending :
    ∀ (l : List TaskState), (∀ t ∈ l, t.status ≠ Status.pending) →
      startFirstPending l = l
  | [], _ => rfl
  | t :: ts, h => by
    unfold startFirstPending
    rw [if_neg (h t (List.mem_cons_self t ts))]
    rw [startFirstPending_of_no_pending ts
      (fun u hu => h u (List.mem_cons_of_mem t hu))]

theorem startFirstPending_drop :
    ∀ (base : Nat) (l : List TaskState),
      (∀ t ∈ l.drop base, t.status ≠ Status.pending) →
      (startFirstPending l).drop base = l.drop base := by
  intro base l
  induction l generalizing base with
  | nil => intro _; rfl
  | cons t ts ih =>
    intro h
    cases base with
    | zero =>
      simp only [List.drop_zero] at h ⊢
      rw [startFirstPending_of_no_pending _ h]
    | succ b =>
      simp only [List.drop_succ_cons] at h ⊢
      unfold startFirstPending
      split
      · rw [List.drop_succ_cons]
      · rw [List.drop_succ_cons]
        exact ih b h

theorem completeFirstRunning_length :
    ∀ (l : List TaskState), (completeFirstRunning l).length = l.length
  | [] => rfl
  | t :: ts => by
    unfold completeFirstRunning
    split <;>
      simp [startFirstPending_length, completeFirstRunning_length ts]

theorem completeFirstRunning_dyn :
    ∀ (l : List TaskState) (base : Nat), TasksDynOK base l →
      TasksDynOK base (completeFirstRunning l) := by
  intro l
  induction l with
  | nil => intro base h; exact h
  | cons t ts ih =>
    intro base h
    unfold completeFirstRunning
    by_cases ht : t.status = Status.running
    · rw [if_pos ht]
      cases base with
      | zero =>
        obtain ⟨hp, hc⟩ := h
        simp only [List.drop_zero] at hp hc
        have hts_p : ∀ u ∈ ts, u.status ≠ Status.pending := fun u hu =>
          hp u (List.mem_cons_of_mem t hu)
        unfold TasksDynOK
        simp only [List.drop_zero]
        rw [startFirstPending_of_no_pending ts hts_p]
        refine ⟨?_, ?_⟩
        · intro u hu
          rcases List.mem_cons.mp hu with h1 | h2
          · rw [h1]; simp
          · exact hts_p u h2
        · rw [List.countP_cons] at hc ⊢
          simp [ht] at hc
          have h0 : List.countP (fun t => decide (t.status = Status.running)) ts = 0 :=
            List.countP_eq_zero.mpr (by intro a ha; simpa using hc a ha)
          simp [h0]
      | succ b =>
        obtain ⟨hp, hc⟩ := h
        simp only [List.drop_succ_cons] at hp hc
        unfold TasksDynOK
        simp only [List.drop_succ_cons]
        rw [startFirstPending_drop b ts hp]
        exact ⟨hp, hc⟩
    · rw [if_neg ht]
      cases base with
      | zero =>
        obtain ⟨hp, hc⟩ := h
        simp only [List.drop_zero] at hp hc
        have hts : TasksDynOK 0 (completeFirstRunning ts) := by
          apply ih 0
          unfold TasksDynOK
          simp only [List.drop_zero]
          refine ⟨fun u hu => hp u (List.mem_cons_of_mem t hu), ?_⟩
          rw [List.countP_cons] at hc
          omega
        obtain ⟨hp', hc'⟩ := hts
        simp only [List.drop_zero] at hp' hc'
        unfold TasksDynOK
        simp only [List.drop_zero]
        refine ⟨?_, ?_⟩
        · intro u hu
          rcases List.mem_cons.mp hu with h1 | h2
          · rw [h1]; exact hp t (List.mem_cons_self t ts)
          · exact hp' u h2
        · rw [List.countP_cons]
          simp [ht]
          exact hc'
      | succ b =>
        obtain ⟨hp, hc⟩ := h
        simp only [List.drop_succ_cons] at hp hc
        unfold TasksDynOK
        simp only [List.drop_succ_cons]
        exact ih b ⟨hp, hc⟩

theorem markTasksList_length (a : MarkAction) (l : List TaskState) :
    (markTasksList a l).length = l.length := by
  cases a <;> simp [markTasksList, startFirstPending_length]

theorem markTasks_id (a : MarkAction) (st : StageState) :
    (markTasks a st).id = st.id := by
  unfold markTasks; split <;> rfl

theorem markTasks_status (a : MarkAction) (st : StageState) :
    (markTasks a st).status = st.status := by
  unfold markTasks; split <;> rfl

theorem markTasks_note (a : MarkAction) (st : StageState) :
    (markTasks a st).note = st.note := by
  unfold markTasks; split <;> rfl

theorem markTasks_base (a : MarkAction) (st : StageState) :
    (markTasks a st).base_task_count = st.base_task_count := by
  unfold markTasks; split <;> rfl

theorem markTasks_tasks (a : MarkAction) (st : StageState) :
    (markTasks a st).tasks = markTasksList a st.tasks := by
  unfold markTasks
  split
  · rename_i h
    rw [List.isEmpty_iff] at h
    rw [h]
    cases a <;> rfl
  · rfl

theorem markTasksList_complete_terminal (l : List TaskState) :
    ∀ t ∈ markTasksList .complete l, terminalStatus t.status := by
  intro t ht
  simp only [markTasksList, List.mem_map] at ht
  obtain ⟨u, _, rfl⟩ := ht
  rcases u with ⟨lab, ust⟩
  cases ust <;> simp [terminalStatus]

theorem markTasksList_fail_terminal (l : List TaskState) :
    ∀ t ∈ markTasksList .fail l, terminalStatus t.status := by
  intro t ht
  simp only [markTasksList, List.mem_map] at ht
  obtain ⟨u, _, rfl⟩ := ht
  rcases u with ⟨lab, ust⟩
  cases ust <;> simp [terminalStatus]

theorem markTasksList_skip_skipped (l : List TaskState)
    (h : ∀ t ∈ l, t.status = Status.pending) :
    ∀ t ∈ markTasksList .skip l, t.status = Status.skipped := by
  intro t ht
  simp only [markTasksList, List.mem_map] at ht
  obtain ⟨u, hu, rfl⟩ := ht
  simp [h u hu]

/-- Count of running tasks after mapping a status transformer that never
produces `running`. -/
theorem countP_running_map_zero (l : List TaskState)
    (f : TaskState → TaskState) (h : ∀ t, (f t).status ≠ Status.running) :
    (l.map f).countP (fun t => decide (t.status = Status.running)) = 0 := by
  rw [List.countP_map, List.countP_eq_zero]
  intro t _ ht
  exact h t (by simpa using ht)

theorem countP_running_map_eq (l : List TaskState)
    (f : TaskState → TaskState)
    (h : ∀ t, ((f t).status = Status.running) ↔ (t.status = Status.running)) :
    (l.map f).countP (fun t => decide (t.status = Status.running))
      = l.countP (fun t => decide (t.status = Status.running)) := by
  rw [List.countP_map]
  apply List.countP_congr
  intro t _
  simp [Function.comp, h t]

theorem tasksDynOK_of_drop_eq {base : Nat} {l l' : List TaskState}
    (h : l'.drop base = l.drop base) (hd : TasksDynOK base l) :
    TasksDynOK base l' := by
  unfold TasksDynOK at hd ⊢
  rw [h]
  exact hd

/-- `markTasksList` with the `complete` action leaves the dynamic region
with no pending and no running task. -/
theorem markTasksList_complete_dyn (base : Nat) (l : List TaskState) :
    TasksDynOK base (markTasksList .complete l) := by
  unfold markTasksList TasksDynOK
  rw [← List.map_drop]
  refine ⟨?_, ?_⟩
  · intro t ht
    simp only [List.mem_map] at ht
    obtain ⟨u, _, rfl⟩ := ht
    rcases u with ⟨lab, ust⟩
    cases ust <;> simp
  · rw [countP_running_map_zero]
    · omega
    · intro u
      rcases u with ⟨lab, ust⟩
      cases ust <;> simp

theorem markTasksList_fail_dyn (base : Nat) (l : List TaskState) :
    TasksDynOK base (markTasksList .fail l) := by
  unfold markTasksList TasksDynOK
  rw [← List.map_drop]
  refine ⟨?_, ?_⟩
  · intro t ht
    simp only [List.mem_map] at ht
    obtain ⟨u, _, rfl⟩ := ht
    rcases u with ⟨lab, ust⟩
    cases ust <;> simp
  · rw [countP_running_map_zero]
    · omega
    · intro u
      rcases u with ⟨lab, ust⟩
      cases ust <;> simp

theorem markTasksList_skip_dyn (base : Nat) (l : List TaskState)
    (hd : TasksDynOK base l) : TasksDynOK base (markTasksList .skip l) := by
  obtain ⟨hp, hc⟩ := hd
  unfold markTasksList TasksDynOK
  rw [← List.map_drop]
  refine ⟨?_, ?_⟩
  · intro t ht
    simp only [List.mem_map] at ht
    obtain ⟨u, hu, rfl⟩ := ht
    have := hp u hu
    rcases u with ⟨lab, ust⟩
    cases ust <;> simp_all
  · rw [countP_running_map_eq]
    · exact hc
    · intro u
      rcases u with ⟨lab, ust⟩
      cases ust <;> simp

theorem markTasksList_start_dyn (base : Nat) (l : List TaskState)
    (hd : TasksDynOK base l) : TasksDynOK base (markTasksList .start l) := by
  apply tasksDynOK_of_drop_eq _ hd
  unfold markTasksList
  exact startFirstPending_drop base l hd.1

theorem markTasksList_dyn (a : MarkAction) (base : Nat) (l : List TaskState)
    (hd : TasksDynOK base l) : TasksDynOK base (markTasksList a l) := by
  cases a
  · exact markTasksList_start_dyn base l hd
  · exact markTasksList_complete_dyn base l
  · exact markTasksList_fail_dyn base l
  · exact markTasksList_skip_dyn base l hd

/- ## `_ensure_base_task_progress` lemmas -/

theorem ensureBaseGo_length (target : Nat) (complete : Bool) (base : Nat) :
    ∀ (l : List TaskState) (i : Nat),
      (ensureBaseGo target complete base i l).length = l.length := by
  intro l
  induction l with
  | nil => intro i; rfl
  | cons t ts ih =>
    intro i
    by_cases h1 : i ≥ base
    · simp only [ensureBaseGo, if_pos h1]
    · by_cases h2 : i < target
      · simp only [ensureBaseGo, if_neg h1, if_pos h2, List.length_cons, ih]
      · by_cases h3 : i = target
        · simp only [ensureBaseGo, if_neg h1, if_neg h2, if_pos h3]
          cases complete with
          | false => simp
          | true =>
            simp only [if_true]
            cases ts with
            | nil => simp
            | cons t2 ts2 =>
              by_cases h4 : i + 1 < base ∧ t2.status = Status.pending
              · simp [if_pos h4]
              · simp [if_neg h4]
        · simp only [ensureBaseGo, if_neg h1, if_neg h2, if_neg h3]

theorem ensureBaseGo_drop (target : Nat) (complete : Bool) (base : Nat) :
    ∀ (l : List TaskState) (i : Nat),
      (ensureBaseGo target complete base i l).drop (base - i)
        = l.drop (base - i) := by
  intro l
  induction l with
  | nil => intro i; rfl
  | cons t ts ih =>
    intro i
    by_cases h1 : i ≥ base
    · simp only [ensureBaseGo, if_pos h1]
    · have hbi : base - i = (base - (i + 1)) + 1 := by omega
      by_cases h2 : i < target
      · simp only [ensureBaseGo, if_neg h1, if_pos h2]
        rw [hbi, List.drop_succ_cons, List.drop_succ_cons]
        exact ih (i + 1)
      · by_cases h3 : i = target
        · simp only [ensureBaseGo, if_neg h1, if_neg h2, if_pos h3]
          cases complete with
          | false =>
            simp only [Bool.false_eq_true, if_false]
            rw [hbi, List.drop_succ_cons, List.drop_succ_cons]
          | true =>
            simp only [if_true]
            cases ts with
            | nil => rw [hbi, List.drop_succ_cons, List.drop_succ_cons]
            | cons t2 ts2 =>
              by_cases h4 : i + 1 < base ∧ t2.status = Status.pending
              · simp only [if_pos h4]
                rw [hbi, List.drop_succ_cons, List.drop_succ_cons]
                have hb2 : base - (i + 1) = (base - (i + 2)) + 1 := by omega
                rw [hb2, List.drop_succ_cons, List.drop_succ_cons]
              · simp only [if_neg h4]
                rw [hbi, List.drop_succ_cons, List.drop_succ_cons]
        · simp only [ensureBaseGo, if_neg h1, if_neg h2, if_neg h3]

theorem ensure_id (target : Nat) (complete : Bool) (seq : List SeqTask)
    (st : StageState) :
    (ensureBaseTaskProgress target complete seq st).id = st.id := by
  unfold ensureBaseTaskProgress
  split <;> rfl

theorem ensure_status (target : Nat) (complete : Bool) (seq : List SeqTask)
    (st : StageState) :
    (ensureBaseTaskProgress target complete seq st).status = st.status := by
  unfold ensureBaseTaskProgress
  split <;> rfl

theorem ensure_base (target : Nat) (complete : Bool) (seq : List SeqTask)
    (st : StageState) :
    (ensureBaseTaskProgress target complete seq st).base_task_count
      = st.base_task_count := by
  unfold ensureBaseTaskProgress
  split <;> rfl

theorem ensure_tasks_length (target : Nat) (complete : Bool)
    (seq : List SeqTask) (st : StageState) :
    (ensureBaseTaskProgress target complete seq st).tasks.length
      = st.tasks.length := by
  unfold ensureBaseTaskProgress
  split
  · rfl
  · exact ensureBaseGo_length target complete st.base_task_count st.tasks 0

theorem ensure_tasks_drop (target : Nat) (complete : Bool)
    (seq : List SeqTask) (st : StageState) :
    (ensureBaseTaskProgress target complete seq st).tasks.drop st.base_task_count
      = st.tasks.drop st.base_task_count := by
  unfold ensureBaseTaskProgress
  split
  · rfl
  · simpa using ensureBaseGo_drop target complete st.base_task_count st.tasks 0

/- ## Per-function preservation of structural stage facts -/

theorem preservesStage_id_fun : PreservesStage (fun st => st) :=
  fun _ => ⟨rfl, rfl, rfl, id⟩

theorem preservesStage_comp {f g : StageState → StageState}
    (hf : PreservesStage f) (hg : PreservesStage g) :
    PreservesStage (fun st => g (f st)) := by
  intro st
  obtain ⟨h1, h2, h3, h4⟩ := hf st
  obtain ⟨g1, g2, g3, g4⟩ := hg (f st)
  exact ⟨by rw [g1, h1], by rw [g2, h2], by rw [g3, h3], fun hok => g4 (h4 hok)⟩

theorem preservesStage_ite (c : Prop) [Decidable c]
    {f : StageState → StageState} (hf : PreservesStage f) :
    PreservesStage (fun st => if c then f st else st) := by
  intro st
  split
  · exact hf st
  · exact ⟨rfl, rfl, rfl, id⟩

theorem preservesStage_ensure (target : Nat) (complete : Bool)
    (seq : List SeqTask) :
    PreservesStage (ensureBaseTaskProgress target complete seq) := by
  intro st
  refine ⟨ensure_id _ _ _ _, ensure_status _ _ _ _, ensure_base _ _ _ _, ?_⟩
  intro hok
  obtain ⟨hlen, hdyn⟩ := hok
  constructor
  · rw [ensure_base, ensure_tasks_length]
    exact hlen
  · rw [ensure_base]
    exact tasksDynOK_of_drop_eq (ensure_tasks_drop _ _ _ _) hdyn

/-- The "complete any running task" status map used in several places. -/
theorem completeRunningMap_dyn (base : Nat) (l : List TaskState)
    (hp : ∀ t ∈ l.drop base, t.status ≠ Status.pending) :
    (∀ t ∈ (l.map (fun t => if t.status = Status.running then
        { t with status := Status.completed } else t)).drop base,
      t.status ≠ Status.pending) ∧
    ((l.map (fun t => if t.status = Status.running then
        { t with status := Status.completed } else t)).drop base).countP
      (fun t => decide (t.status = Status.running)) = 0 := by
  rw [← List.map_drop]
  constructor
  · intro t ht
    simp only [List.mem_map] at ht
    obtain ⟨u, hu, rfl⟩ := ht
    have hup := hp u hu
    by_cases h : u.status = Status.running
    · simp [h]
    · simpa [h] using hup
  · apply countP_running_map_zero
    intro u
    by_cases h : u.status = Status.running
    · simp [h]
    · simp [h]

theorem dyn_append_running (base : Nat) (l : List TaskState) (x : TaskState)
    (hlen : base ≤ l.length)
    (hp : ∀ t ∈ l.drop base, t.status ≠ Status.pending)
    (hc : (l.drop base).countP (fun t => decide (t.status = Status.running)) = 0)
    (hx : x.status = Status.running) :
    TasksDynOK base (l ++ [x]) := by
  unfold TasksDynOK
  rw [List.drop_append_eq_append_drop]
  have h0 : base - l.length = 0 := by omega
  rw [h0]
  constructor
  · intro t ht
    rcases List.mem_append.mp ht with h1 | h2
    · exact hp t h1
    · have : t = x := by simpa using h2
      rw [this, hx]
      simp
  · rw [List.countP_append, hc]
    simp [List.countP_cons, hx]

theorem drop_take_append (base : Nat) (l X : List TaskState)
    (h : base ≤ l.length) : (l.take base ++ X).drop base = X := by
  rw [List.drop_append_eq_append_drop]
  have h1 : (l.take base).length = base := by
    rw [List.length_take]
    omega
  rw [h1]
  simp

theorem length_take_append (base : Nat) (l : List TaskState)
    (f : TaskState → TaskState) (h : base ≤ l.length) :
    (l.take base ++ (l.drop base).map f).length = l.length := by
  rw [List.length_append, List.length_take, List.length_map, List.length_drop]
  omega

theorem preservesStage_advanceTask (name : Option String) :
    PreservesStage (advanceTask name) := by
  intro st
  unfold advanceTask
  split
  · exact ⟨rfl, rfl, rfl, id⟩
  · cases name with
    | some nm =>
      simp only []
      split
      · refine ⟨rfl, rfl, rfl, ?_⟩
        intro ⟨hlen, hdyn⟩
        refine ⟨by simpa using hlen, ?_⟩
        obtain ⟨hp0, hc0⟩ := completeRunningMap_dyn st.base_task_count st.tasks hdyn.1
        exact ⟨hp0, by rw [hc0]; omega⟩
      · refine ⟨rfl, rfl, rfl, ?_⟩
        intro ⟨hlen, hdyn⟩
        obtain ⟨hp0, hc0⟩ := completeRunningMap_dyn st.base_task_count st.tasks hdyn.1
        constructor
        · simp only [List.length_append, List.length_map, List.length_cons,
            List.length_nil]
          omega
        · apply dyn_append_running _ _ _ (by simpa using hlen) hp0 hc0 rfl
    | none =>
      simp only []
      split
      · refine ⟨rfl, rfl, rfl, ?_⟩
        intro ⟨hlen, hdyn⟩
        refine ⟨by rw [completeFirstRunning_length]; exact hlen, ?_⟩
        exact completeFirstRunning_dyn st.tasks st.base_task_count hdyn
      · refine ⟨rfl, rfl, rfl, ?_⟩
        intro ⟨hlen, hdyn⟩
        refine ⟨by rw [startFirstPending_length]; exact hlen, ?_⟩
        exact tasksDynOK_of_drop_eq
          (startFirstPending_drop st.base_task_count st.tasks hdyn.1) hdyn

theorem preservesStage_completeDynamicTasks :
    PreservesStage completeDynamicTasks := by
  intro st
  unfold completeDynamicTasks
  refine ⟨rfl, rfl, rfl, ?_⟩
  intro ⟨hlen, hdyn⟩
  constructor
  · rw [length_take_append _ _ _ hlen]
    exact hlen
  · unfold TasksDynOK
    rw [drop_take_append _ _ _ hlen]
    constructor
    · intro t ht
      simp only [List.mem_map] at ht
      obtain ⟨u, _, rfl⟩ := ht
      rcases u with ⟨lab, ust⟩
      cases ust <;> simp
    · rw [countP_running_map_zero _ _ (fun u => by
        rcases u with ⟨lab, ust⟩
        cases ust <;> simp)]
      omega

theorem preservesStage_completeDestroyDynamicTasks :
    PreservesStage completeDestroyDynamicTasks := by
  intro st
  unfold completeDestroyDynamicTasks
  refine ⟨rfl, rfl, rfl, ?_⟩
  intro ⟨hlen, hdyn⟩
  constructor
  · rw [length_take_append _ _ _ hlen]
    exact hlen
  · unfold TasksDynOK
    rw [drop_take_append _ _ _ hlen]
    constructor
    · intro t ht
      simp only [List.mem_map] at ht
      obtain ⟨u, _, rfl⟩ := ht
      rcases u with ⟨lab, ust⟩
      cases ust <;> simp
    · rw [countP_running_map_zero _ _ (fun u => by
        rcases u with ⟨lab, ust⟩
        cases ust <;> simp)]
      omega

theorem preservesStage_completeMatchingDestroyTask (line : String) :
    PreservesStage (completeMatchingDestroyTask line) := by
  intro st
  unfold completeMatchingDestroyTask
  refine ⟨rfl, rfl, rfl, ?_⟩
  intro ⟨hlen, hdyn⟩
  constructor
  · rw [length_take_append _ _ _ hlen]
    exact hlen
  · unfold TasksDynOK
    rw [drop_take_append _ _ _ hlen]
    constructor
    · intro t ht
      simp only [List.mem_map] at ht
      obtain ⟨u, hu, rfl⟩ := ht
      have hup := hdyn.1 u hu
      split <;> first | (simp; done) | simpa using hup
    · rw [List.countP_map]
      calc (st.tasks.drop st.base_task_count).countP _
          ≤ (st.tasks.drop st.base_task_count).countP
            (fun t => decide (t.status = Status.running)) := by
            apply List.countP_mono_left
            intro u _ hu
            simp only [Function.comp] at hu
            split at hu <;> simp_all
        _ ≤ 1 := hdyn.2

/-- Appending one running dynamic task after completing the running
dynamic tasks preserves structural stage facts. -/
theorem stageTasksOK_add_dyn (base : Nat) (st1 : StageState) (x : TaskState)
    (hbase : st1.base_task_count = base)
    (hok : StageTasksOK st1) (hx : x.status = Status.running) :
    StageTasksOK { st1 with tasks :=
      (st1.tasks.take base ++ (st1.tasks.drop base).map (fun t =>
        if t.status = Status.running then { t with status := Status.completed }
        else t)) ++ [x] } := by
  obtain ⟨hlen0, hdyn⟩ := hok
  rw [hbase] at hlen0 hdyn
  have hlen1 : (st1.tasks.take base ++ (st1.tasks.drop base).map (fun t =>
      if t.status = Status.running then { t with status := Status.completed }
      else t)).length = st1.tasks.length :=
    length_take_append base st1.tasks _ hlen0
  have hdropA : (st1.tasks.take base ++ (st1.tasks.drop base).map (fun t =>
      if t.status = Status.running then { t with status := Status.completed }
      else t)).drop base = (st1.tasks.drop base).map (fun t =>
      if t.status = Status.running then { t with status := Status.completed }
      else t) :=
    drop_take_append base st1.tasks _ hlen0
  constructor
  · show st1.base_task_count ≤ _
    rw [hbase, List.length_append, hlen1]
    simp
    omega
  · show TasksDynOK st1.base_task_count _
    rw [hbase]
    apply dyn_append_running base _ x _ _ _ hx
    · rw [hlen1]
      exact hlen0
    · rw [hdropA]
      intro t ht
      simp only [List.mem_map] at ht
      obtain ⟨u, hu, rfl⟩ := ht
      have hup := hdyn.1 u hu
      split <;> simp_all
    · rw [hdropA]
      apply countP_running_map_zero
      intro u
      by_cases h : u.status = Status.running
      · simp [h]
      · simp [h]

theorem preservesStage_addCreationTask (line : String) :
    PreservesStage (addCreationTask line) := by
  intro st
  unfold addCreationTask
  by_cases hb : st.base_task_count = 0
  · rw [if_pos hb]
    exact ⟨rfl, rfl, rfl, id⟩
  · rw [if_neg hb]
    refine ⟨ensure_id (min (st.base_task_count - 1) 2) false
        TERRAFORM_TASK_SEQUENCE st,
      ensure_status (min (st.base_task_count - 1) 2) false
        TERRAFORM_TASK_SEQUENCE st,
      ensure_base (min (st.base_task_count - 1) 2) false
        TERRAFORM_TASK_SEQUENCE st, ?_⟩
    intro hok
    have hok1 := (preservesStage_ensure (min (st.base_task_count - 1) 2) false
      TERRAFORM_TASK_SEQUENCE st).2.2.2 hok
    have hb1 := ensure_base (min (st.base_task_count - 1) 2) false
      TERRAFORM_TASK_SEQUENCE st
    exact stageTasksOK_add_dyn st.base_task_count _ _ hb1 hok1 rfl

theorem preservesStage_addDestroyTask (line : String) :
    PreservesStage (addDestroyTask line) := by
  intro st
  unfold addDestroyTask
  by_cases hb : st.base_task_count = 0
  · rw [if_pos hb]
    exact ⟨rfl, rfl, rfl, id⟩
  · rw [if_neg hb]
    refine ⟨ensure_id (min (st.base_task_count - 1)
        (DESTROY_TASK_SEQUENCE.length - 1)) false DESTROY_TASK_SEQUENCE st,
      ensure_status (min (st.base_task_count - 1)
        (DESTROY_TASK_SEQUENCE.length - 1)) false DESTROY_TASK_SEQUENCE st,
      ensure_base (min (st.base_task_count - 1)
        (DESTROY_TASK_SEQUENCE.length - 1)) false DESTROY_TASK_SEQUENCE st, ?_⟩
    intro hok
    have hok1 := (preservesStage_ensure
      (min (st.base_task_count - 1) (DESTROY_TASK_SEQUENCE.length - 1)) false
      DESTROY_TASK_SEQUENCE st).2.2.2 hok
    have hb1 := ensure_base
      (min (st.base_task_count - 1) (DESTROY_TASK_SEQUENCE.length - 1)) false
      DESTROY_TASK_SEQUENCE st
    exact stageTasksOK_add_dyn st.base_task_count _ _ hb1 hok1 rfl

theorem preservesStage_advanceTerraformTask (line : Option String) :
    PreservesStage (advanceTerraformTask line) := by
  intro st
  unfold advanceTerraformTask
  cases line with
  | none => exact ⟨rfl, rfl, rfl, id⟩
  | some l =>
    simp only []
    split
    · exact ⟨rfl, rfl, rfl, id⟩
    · cases htf : tfFind l 0 TERRAFORM_TASK_SEQUENCE with
      | none => exact ⟨rfl, rfl, rfl, id⟩
      | some v =>
        obtain ⟨idx, c, b⟩ := v
        cases b with
        | false =>
          exact (preservesStage_comp
            (preservesStage_ensure idx false TERRAFORM_TASK_SEQUENCE)
            (preservesStage_ite _ (preservesStage_addCreationTask l))) st
        | true =>
          exact (preservesStage_comp
            (preservesStage_ensure idx true TERRAFORM_TASK_SEQUENCE)
            (preservesStage_ite _ preservesStage_completeDynamicTasks)) st

theorem preservesStage_destroyLoop (lower : String) :
    ∀ (seq : List SeqTask) (idx : Nat),
      PreservesStage (destroyLoop lower idx seq)
  | [], _ => fun _ => ⟨rfl, rfl, rfl, id⟩
  | c :: rest, idx => by
    have hrest := preservesStage_destroyLoop lower rest (idx + 1)
    intro st
    exact (preservesStage_comp
      (preservesStage_comp
        (preservesStage_ite _
          (preservesStage_ensure idx false DESTROY_TASK_SEQUENCE))
        (preservesStage_ite _
          (preservesStage_comp
            (preservesStage_ensure idx true DESTROY_TASK_SEQUENCE)
            (preservesStage_ite _ preservesStage_completeDestroyDynamicTasks))))
      hrest) st

theorem preservesStage_advanceDestroyTask (line : Option String) :
    PreservesStage (advanceDestroyTask line) := by
  intro st
  unfold advanceDestroyTask
  cases line with
  | none => exact ⟨rfl, rfl, rfl, id⟩
  | some l =>
    simp only []
    split
    · exact ⟨rfl, rfl, rfl, id⟩
    · have hinner : PreservesStage (fun y =>
        if strContains l "Destroying..." then addDestroyTask l y
        else if strContains l "Destruction complete"
            || strContains l "Destroy complete" then
          completeMatchingDestroyTask l y
        else y) := by
        intro y
        split
        · exact preservesStage_addDestroyTask l y
        · split
          · exact preservesStage_completeMatchingDestroyTask l y
          · exact ⟨rfl, rfl, rfl, id⟩
      exact (preservesStage_comp
        (preservesStage_destroyLoop (strLower l) DESTROY_TASK_SEQUENCE 0)
        hinner) st

/-- The stage transform applied by `_record_progress_event` once the
current stage has been found. -/
theorem preservesStage_dispatch (e : String) (line : Option String) :
    PreservesStage (fun st =>
      if st.progress_event = some e then
        if e = "ansible_task" then advanceTask (extractAnsibleTaskName line) st
        else if e = "terraform_step" then advanceTerraformTask line st
        else if e = "terraform_destroy" then advanceDestroyTask line st
        else st
      else st) := by
  have hD : PreservesStage (fun st =>
      if e = "ansible_task" then advanceTask (extractAnsibleTaskName line) st
      else if e = "terraform_step" then advanceTerraformTask line st
      else if e = "terraform_destroy" then advanceDestroyTask line st
      else st) := by
    by_cases h1 : e = "ansible_task"
    · intro st
      simp only [if_pos h1]
      exact preservesStage_advanceTask _ st
    · by_cases h2 : e = "terraform_step"
      · intro st
        simp only [if_neg h1, if_pos h2]
        exact preservesStage_advanceTerraformTask line st
      · by_cases h3 : e = "terraform_destroy"
        · intro st
          simp only [if_neg h1, if_neg h2, if_pos h3]
          exact preservesStage_advanceDestroyTask line st
        · intro st
          simp only [if_neg h1, if_neg h2, if_neg h3]
          exact ⟨trivial, trivial, trivial, id⟩
  intro st
  by_cases hp : st.progress_event = some e
  · have hbun := hD st
    simp only [if_pos hp]
    exact hbun
  · simp only [if_neg hp]
    exact ⟨trivial, trivial, trivial, id⟩

/- ## Operation-level preservation of `WF` -/

theorem updateStage_stage_state (s : RunnerState) (sid : String)
    (f : StageState → StageState)
    (hn : (s.stage_state.map (fun st => st.id)).Nodup) :
    (updateStage s sid f).stage_state
      = s.stage_state.map (fun st => if st.id = sid then f st else st) :=
  updateFirst_id_eq_map sid f s.stage_state hn

theorem nodup_map_update {l : List StageState} (sid : String)
    (f : StageState → StageState) (hid : ∀ x, (f x).id = x.id)
    (hn : (l.map (fun st => st.id)).Nodup) :
    ((l.map (fun st => if st.id = sid then f st else st)).map
      (fun st => st.id)).Nodup := by
  rw [List.map_map]
  have hcong : ∀ x ∈ l,
      ((fun st => st.id) ∘ (fun st => if st.id = sid then f st else st)) x
        = (fun st => st.id) x := by
    intro x _
    by_cases h : x.id = sid
    · simp [Function.comp, h, hid x]
    · simp [Function.comp, h]
  rw [List.map_congr_left hcong]
  exact hn

theorem wf_appendLog (line : String) {s : RunnerState} (hwf : WF s) :
    WF (appendLog line s) := hwf

theorem wf_updateStage_current (s : RunnerState) (c : String)
    (f : StageState → StageState) (hf : PreservesStage f)
    (hwf : WF s) (hc : s.current_stage = some c) :
    WF (updateStage s c f) := by
  obtain ⟨hn, hcur, hstages⟩ := hwf
  have hmap := updateStage_stage_state s c f hn
  refine ⟨?_, ?_, ?_⟩
  · show ((updateStage s c f).stage_state.map (fun st => st.id)).Nodup
    rw [hmap]
    exact nodup_map_update c f (fun x => (hf x).1) hn
  · intro c' hc'
    have hc'' : s.current_stage = some c' := hc'
    obtain ⟨stw, hmem, hid, hrun⟩ := hcur c' hc''
    by_cases h : stw.id = c
    · refine ⟨f stw, ?_, ?_, ?_⟩
      · show f stw ∈ (updateStage s c f).stage_state
        rw [hmap]
        have hm := List.mem_map_of_mem
          (fun st => if st.id = c then f st else st) hmem
        simpa [h] using hm
      · rw [(hf stw).1]
        exact hid
      · rw [(hf stw).2.1]
        exact hrun
    · refine ⟨stw, ?_, hid, hrun⟩
      show stw ∈ (updateStage s c f).stage_state
      rw [hmap]
      have hm := List.mem_map_of_mem
        (fun st => if st.id = c then f st else st) hmem
      simpa [h] using hm
  · intro y hy
    have hy' : y ∈ (updateStage s c f).stage_state := hy
    rw [hmap] at hy'
    obtain ⟨x, hx, rfl⟩ := List.mem_map.mp hy'
    obtain ⟨w1, w2, w3, w4⟩ := hstages x hx
    by_cases hxc : x.id = c
    · simp only [if_pos hxc]
      obtain ⟨f1, f2, f3, f4⟩ := hf x
      have hxrun : x.status = Status.running := by
        obtain ⟨stw, hmem, hid, hrun⟩ := hcur c hc
        have hxeq : x = stw := stage_id_inj hn hx hmem (by rw [hxc, hid])
        rw [hxeq, hrun]
      refine ⟨?_, ?_, ?_, f4 w4⟩
      · intro _
        show s.current_stage = some (f x).id
        rw [f1]
        exact w1 hxrun
      · intro hpend
        rw [f2, hxrun] at hpend
        exact Status.noConfusion hpend
      · intro hterm
        rw [f2, hxrun] at hterm
        simp [terminalStatus] at hterm
    · simp only [if_neg hxc]
      exact ⟨w1, w2, w3, w4⟩

theorem wf_recordProgressEvent (e : String) (line : Option String)
    {s : RunnerState} (hwf : WF s) : WF (recordProgressEvent e line s) := by
  unfold recordProgressEvent
  cases hc : s.current_stage with
  | none => exact hwf
  | some c =>
    dsimp only
    by_cases hh : hasStageId s c
    case neg => rw [if_neg hh]; exact hwf
    rw [if_pos hh]
    exact wf_updateStage_current s c _ (preservesStage_dispatch e line) hwf hc

/-- The final step of `_start_stage`: mark the target stage running and
make it current, given facts about the surrounding list. -/
theorem wf_start_final (s1 : RunnerState) (sid : String)
    (hn1 : (s1.stage_state.map (fun st => st.id)).Nodup)
    (hex : ∃ x ∈ s1.stage_state, x.id = sid)
    (hnorun : ∀ x ∈ s1.stage_state, x.id ≠ sid → x.status ≠ Status.running)
    (hpend : ∀ x ∈ s1.stage_state, x.status = Status.pending →
      ∀ t ∈ x.tasks, t.status = Status.pending)
    (hterm : ∀ x ∈ s1.stage_state, terminalStatus x.status →
      ∀ t ∈ x.tasks, terminalStatus t.status)
    (hok : ∀ x ∈ s1.stage_state, StageTasksOK x) :
    WF { (updateStage s1 sid (fun st =>
        markTasks .start { st with status := .running, note := "In progress..." }))
        with current_stage := some sid } := by
  have hfid : ∀ x : StageState, (markTasks .start
      { x with status := Status.running, note := "In progress..." }).id = x.id := by
    intro x
    rw [markTasks_id]
  have hfstat : ∀ x : StageState, (markTasks .start
      { x with status := Status.running, note := "In progress..." }).status
      = Status.running := by
    intro x
    rw [markTasks_status]
  have hmap := updateStage_stage_state s1 sid (fun st =>
    markTasks .start { st with status := .running, note := "In progress..." }) hn1
  obtain ⟨x0, hx0mem, hx0id⟩ := hex
  refine ⟨?_, ?_, ?_⟩
  · show ((updateStage s1 sid _).stage_state.map (fun st => st.id)).Nodup
    rw [hmap]
    exact nodup_map_update sid _ hfid hn1
  · intro c' hc'
    have hc'' : c' = sid := by
      have : some sid = some c' := hc'
      exact (Option.some.injEq _ _ ▸ this).symm
    refine ⟨if x0.id = sid then markTasks .start
        { x0 with status := .running, note := "In progress..." } else x0, ?_, ?_, ?_⟩
    · show _ ∈ (updateStage s1 sid _).stage_state
      rw [hmap]
      exact List.mem_map_of_mem _ hx0mem
    · rw [if_pos hx0id, hfid x0, hx0id, hc'']
    · rw [if_pos hx0id, hfstat x0]
  · intro y hy
    have hy' : y ∈ (updateStage s1 sid _).stage_state := hy
    rw [hmap] at hy'
    obtain ⟨x, hx, rfl⟩ := List.mem_map.mp hy'
    by_cases hxid : x.id = sid
    · simp only [if_pos hxid]
      refine ⟨?_, ?_, ?_, ?_⟩
      · intro _
        show some sid = some _
        rw [hfid x, hxid]
      · intro h
        rw [hfstat x] at h
        simp at h
      · intro h
        rw [hfstat x] at h
        simp [terminalStatus] at h
      · obtain ⟨hl, hd⟩ := hok x hx
        constructor
        · rw [markTasks_base, markTasks_tasks, markTasksList_length]
          exact hl
        · rw [markTasks_base, markTasks_tasks]
          exact markTasksList_start_dyn _ _ hd
    · simp only [if_neg hxid]
      refine ⟨?_, hpend x hx, hterm x hx, hok x hx⟩
      intro hrun
      exact absurd hrun (hnorun x hx hxid)

theorem wf_startStage (sid : String) {s : RunnerState} (hwf : WF s) :
    WF (startStage sid s) := by
  unfold startStage
  by_cases hh : hasStageId s sid
  case neg => rw [if_neg hh]; exact hwf
  rw [if_pos hh]
  obtain ⟨hn, hcur, hstages⟩ := hwf
  cases hc : s.current_stage with
  | none =>
    dsimp only
    apply wf_start_final s sid hn hh
    · intro x hx _ hr
      have := (hstages x hx).1 hr
      rw [hc] at this
      exact Option.noConfusion this
    · exact fun x hx => (hstages x hx).2.1
    · exact fun x hx => (hstages x hx).2.2.1
    · exact fun x hx => (hstages x hx).2.2.2
  | some c =>
    dsimp only
    by_cases hcs : c ≠ sid
    · rw [if_pos hcs]
      have hmap1 := updateStage_stage_state s c (fun st =>
        markTasks .complete { st with status := .completed, note := "Finished." }) hn
      have hf1id : ∀ x : StageState, (markTasks .complete
          { x with status := Status.completed, note := "Finished." }).id = x.id := by
        intro x
        rw [markTasks_id]
      have hf1stat : ∀ x : StageState, (markTasks .complete
          { x with status := Status.completed, note := "Finished." }).status
          = Status.completed := by
        intro x
        rw [markTasks_status]
      apply wf_start_final _ sid
      · show ((updateStage s c _).stage_state.map (fun st => st.id)).Nodup
        rw [hmap1]
        exact nodup_map_update c _ hf1id hn
      · obtain ⟨x0, hx0mem, hx0id⟩ := hh
        have hne : ¬ x0.id = c := by
          rw [hx0id]
          exact fun hcontra => hcs hcontra.symm
        refine ⟨x0, ?_, hx0id⟩
        show x0 ∈ (updateStage s c _).stage_state
        rw [hmap1]
        have hm := List.mem_map_of_mem (fun st : StageState => if st.id = c then
            markTasks .complete { st with status := Status.completed, note := "Finished." }
          else st) hx0mem
        simpa [hne] using hm
      · intro y hy hyid
        have hy' : y ∈ (updateStage s c _).stage_state := hy
        rw [hmap1] at hy'
        obtain ⟨x, hx, rfl⟩ := List.mem_map.mp hy'
        by_cases hxc : x.id = c
        · simp only [if_pos hxc]
          rw [hf1stat x]
          simp
        · simp only [if_neg hxc]
          intro hr
          have := (hstages x hx).1 hr
          rw [hc] at this
          have : x.id = c := by
            have h2 := Option.some.injEq c x.id ▸ this
            exact h2.symm
          exact hxc this
      · intro y hy
        have hy' : y ∈ (updateStage s c _).stage_state := hy
        rw [hmap1] at hy'
        obtain ⟨x, hx, rfl⟩ := List.mem_map.mp hy'
        by_cases hxc : x.id = c
        · simp only [if_pos hxc]
          intro h
          rw [hf1stat x] at h
          exact Status.noConfusion h
        · simp only [if_neg hxc]
          exact (hstages x hx).2.1
      · intro y hy
        have hy' : y ∈ (updateStage s c _).stage_state := hy
        rw [hmap1] at hy'
        obtain ⟨x, hx, rfl⟩ := List.mem_map.mp hy'
        by_cases hxc : x.id = c
        · simp only [if_pos hxc]
          intro _
          rw [markTasks_tasks]
          exact markTasksList_complete_terminal _
        · simp only [if_neg hxc]
          exact (hstages x hx).2.2.1
      · intro y hy
        have hy' : y ∈ (updateStage s c _).stage_state := hy
        rw [hmap1] at hy'
        obtain ⟨x, hx, rfl⟩ := List.mem_map.mp hy'
        by_cases hxc : x.id = c
        · simp only [if_pos hxc]
          obtain ⟨hl, hd⟩ := (hstages x hx).2.2.2
          constructor
          · rw [markTasks_base, markTasks_tasks, markTasksList_length]
            exact hl
          · rw [markTasks_base, markTasks_tasks]
            exact markTasksList_complete_dyn _ _
        · simp only [if_neg hxc]
          exact (hstages x hx).2.2.2
    · rw [if_neg hcs]
      have hceq : c = sid := not_not.mp (fun h => hcs h)
      apply wf_start_final s sid hn hh
      · intro x hx hxid hr
        have := (hstages x hx).1 hr
        rw [hc] at this
        have hxc : x.id = c := by
          have h2 := Option.some.injEq c x.id ▸ this
          exact h2.symm
        rw [hceq] at hxc
        exact hxid hxc
      · exact fun x hx => (hstages x hx).2.1
      · exact fun x hx => (hstages x hx).2.2.1
      · exact fun x hx => (hstages x hx).2.2.2

theorem wf_completeStage (sid : String) (status : Status) (note : String)
    {s : RunnerState} (hwf : WF s)
    (hst : status = Status.completed ∨ status = Status.failed) :
    WF (completeStage sid status note s) := by
  unfold completeStage
  by_cases hh : hasStageId s sid
  case neg => rw [if_neg hh]; exact hwf
  rw [if_pos hh]
  obtain ⟨hn, hcur, hstages⟩ := hwf
  have hfc : ∀ x : StageState,
      ((fun st : StageState =>
        let st1 := { st with status := status, note := note }
        if status = Status.completed then markTasks .complete st1
        else if status = Status.failed then markTasks .fail st1
        else if status = Status.skipped then markTasks .skip st1
        else st1) x).id = x.id ∧
      ((fun st : StageState =>
        let st1 := { st with status := status, note := note }
        if status = Status.completed then markTasks .complete st1
        else if status = Status.failed then markTasks .fail st1
        else if status = Status.skipped then markTasks .skip st1
        else st1) x).status = status ∧
      (∀ t ∈ ((fun st : StageState =>
        let st1 := { st with status := status, note := note }
        if status = Status.completed then markTasks .complete st1
        else if status = Status.failed then markTasks .fail st1
        else if status = Status.skipped then markTasks .skip st1
        else st1) x).tasks, terminalStatus t.status) ∧
      (StageTasksOK x → StageTasksOK ((fun st : StageState =>
        let st1 := { st with status := status, note := note }
        if status = Status.completed then markTasks .complete st1
        else if status = Status.failed then markTasks .fail st1
        else if status = Status.skipped then markTasks .skip st1
        else st1) x)) := by
    intro x
    rcases hst with h | h
    · subst h
      simp only [eq_self_iff_true, if_true]
      refine ⟨markTasks_id _ _, markTasks_status _ _, ?_, ?_⟩
      · rw [markTasks_tasks]
        exact markTasksList_complete_terminal _
      · intro ⟨hl, hd⟩
        constructor
        · rw [markTasks_base, markTasks_tasks, markTasksList_length]
          exact hl
        · rw [markTasks_base, markTasks_tasks]
          exact markTasksList_complete_dyn _ _
    · subst h
      have hne : ¬ (Status.failed = Status.completed) := by simp
      simp only [if_neg hne, eq_self_iff_true, if_true]
      refine ⟨markTasks_id _ _, markTasks_status _ _, ?_, ?_⟩
      · rw [markTasks_tasks]
        exact markTasksList_fail_terminal _
      · intro ⟨hl, hd⟩
        constructor
        · rw [markTasks_base, markTasks_tasks, markTasksList_length]
          exact hl
        · rw [markTasks_base, markTasks_tasks]
          exact markTasksList_fail_dyn _ _
  have hmap := updateStage_stage_state s sid (fun st =>
    let st1 := { st with status := status, note := note }
    if status = Status.completed then markTasks .complete st1
    else if status = Status.failed then markTasks .fail st1
    else if status = Status.skipped then markTasks .skip st1
    else st1) hn
  have hterm_status : terminalStatus status := by
    rcases hst with h | h
    · rw [h]; exact Or.inl rfl
    · rw [h]; exact Or.inr (Or.inl rfl)
  by_cases hcc : s.current_stage = some sid
  · rw [if_pos (show (updateStage s sid _).current_stage = some sid from hcc)]
    refine ⟨?_, ?_, ?_⟩
    · show ((updateStage s sid _).stage_state.map (fun st => st.id)).Nodup
      rw [hmap]
      exact nodup_map_update sid _ (fun x => (hfc x).1) hn
    · intro c' hc'
      exact Option.noConfusion hc'
    · intro y hy
      have hy' : y ∈ (updateStage s sid _).stage_state := hy
      rw [hmap] at hy'
      obtain ⟨x, hx, rfl⟩ := List.mem_map.mp hy'
      by_cases hxsid : x.id = sid
      · simp only [if_pos hxsid]
        obtain ⟨f1, f2, f3, f4⟩ := hfc x
        refine ⟨?_, ?_, fun _ => f3, f4 ((hstages x hx).2.2.2)⟩
        · intro hrun
          rw [f2] at hrun
          rcases hst with h | h <;> (rw [h] at hrun; exact Status.noConfusion hrun)
        · intro hpendx
          rw [f2] at hpendx
          rcases hst with h | h <;> (rw [h] at hpendx; exact Status.noConfusion hpendx)
      · simp only [if_neg hxsid]
        refine ⟨?_, (hstages x hx).2.1, (hstages x hx).2.2.1,
          (hstages x hx).2.2.2⟩
        intro hrun
        have := (hstages x hx).1 hrun
        rw [hcc] at this
        have hxid : x.id = sid := by
          have h2 := Option.some.injEq sid x.id ▸ this
          exact h2.symm
        exact absurd hxid hxsid
  · rw [if_neg (show ¬ (updateStage s sid _).current_stage = some sid from hcc)]
    refine ⟨?_, ?_, ?_⟩
    · show ((updateStage s sid _).stage_state.map (fun st => st.id)).Nodup
      rw [hmap]
      exact nodup_map_update sid _ (fun x => (hfc x).1) hn
    · intro c' hc'
      have hc'' : s.current_stage = some c' := hc'
      obtain ⟨stw, hmem, hid, hrun⟩ := hcur c' hc''
      have hstwne : ¬ stw.id = sid := by
        intro hcontra
        apply hcc
        rw [hc'', ← hid, hcontra]
      refine ⟨stw, ?_, hid, hrun⟩
      show stw ∈ (updateStage s sid _).stage_state
      rw [hmap]
      have hm := List.mem_map_of_mem (fun st : StageState =>
        if st.id = sid then
          (let st1 := { st with status := status, note := note }
           if status = Status.completed then markTasks .complete st1
           else if status = Status.failed then markTasks .fail st1
           else if status = Status.skipped then markTasks .skip st1
           else st1)
        else st) hmem
      simpa [hstwne] using hm
    · intro y hy
      have hy' : y ∈ (updateStage s sid _).stage_state := hy
      rw [hmap] at hy'
      obtain ⟨x, hx, rfl⟩ := List.mem_map.mp hy'
      by_cases hxsid : x.id = sid
      · simp only [if_pos hxsid]
        obtain ⟨f1, f2, f3, f4⟩ := hfc x
        refine ⟨?_, ?_, fun _ => f3, f4 ((hstages x hx).2.2.2)⟩
        · intro hrun
          rw [f2] at hrun
          rcases hst with h | h <;> (rw [h] at hrun; exact Status.noConfusion hrun)
        · intro hpendx
          rw [f2] at hpendx
          rcases hst with h | h <;> (rw [h] at hpendx; exact Status.noConfusion hpendx)
      · simp only [if_neg hxsid]
        exact ⟨(hstages x hx).1, (hstages x hx).2.1, (hstages x hx).2.2.1,
          (hstages x hx).2.2.2⟩

theorem nodup_map_of_id {l : List StageState} (φ : StageState → StageState)
    (hid : ∀ x ∈ l, (φ x).id = x.id)
    (hn : (l.map (fun st => st.id)).Nodup) :
    ((l.map φ).map (fun st => st.id)).Nodup := by
  rw [List.map_map]
  rw [List.map_congr_left (fun x hx => by
    simp only [Function.comp]
    exact hid x hx)]
  exact hn

/-- The tail of `_finalize_run`: skipping pending stages and clearing the
running flag, starting from a state with no running stage. -/
theorem finalize_tail (S : RunnerState) (now : Nat)
    (hn : (S.stage_state.map (fun st => st.id)).Nodup)
    (hcurnone : S.current_stage = none)
    (hnorun : ∀ x ∈ S.stage_state, x.status ≠ Status.running)
    (hpend : ∀ x ∈ S.stage_state, x.status = Status.pending →
      ∀ t ∈ x.tasks, t.status = Status.pending)
    (hterm : ∀ x ∈ S.stage_state, terminalStatus x.status →
      ∀ t ∈ x.tasks, terminalStatus t.status)
    (hok : ∀ x ∈ S.stage_state, StageTasksOK x) :
    WF { S with
          stage_state := S.stage_state.map (fun (st : StageState) =>
            if st.status = Status.pending then
              markTasks .skip { st with status := .skipped,
                                        note := "Not executed in this run." }
            else st),
          running := false, finished_at := some now } ∧
    AllTerminal { S with
          stage_state := S.stage_state.map (fun (st : StageState) =>
            if st.status = Status.pending then
              markTasks .skip { st with status := .skipped,
                                        note := "Not executed in this run." }
            else st),
          running := false, finished_at := some now } := by
  have hAT : AllTerminal { S with
      stage_state := S.stage_state.map (fun (st : StageState) =>
        if st.status = Status.pending then
          markTasks .skip { st with status := .skipped,
                                    note := "Not executed in this run." }
        else st),
      running := false, finished_at := some now } := by
    intro y hy
    obtain ⟨x, hx, rfl⟩ := List.mem_map.mp hy
    by_cases hp : x.status = Status.pending
    · simp only [if_pos hp]
      constructor
      · rw [markTasks_status]
        exact Or.inr (Or.inr rfl)
      · intro t ht
        rw [markTasks_tasks] at ht
        have hts := markTasksList_skip_skipped _ (hpend x hx hp) t ht
        rw [hts]
        exact Or.inr (Or.inr rfl)
    · simp only [if_neg hp]
      have hterm_x : terminalStatus x.status := by
        rw [show terminalStatus x.status
            = (x.status = .completed ∨ x.status = .failed ∨ x.status = .skipped)
          from rfl]
        cases hsx : x.status with
        | pending => exact absurd hsx hp
        | running => exact absurd hsx (hnorun x hx)
        | completed => exact Or.inl rfl
        | failed => exact Or.inr (Or.inl rfl)
        | skipped => exact Or.inr (Or.inr rfl)
      exact ⟨hterm_x, hterm x hx hterm_x⟩
  refine ⟨⟨?_, ?_, ?_⟩, hAT⟩
  · show ((S.stage_state.map (fun (st : StageState) =>
        if st.status = Status.pending then
          markTasks .skip { st with status := .skipped,
                                    note := "Not executed in this run." }
        else st)).map (fun st => st.id)).Nodup
    apply nodup_map_of_id _ _ hn
    intro x _
    by_cases hp : x.status = Status.pending
    · simp [hp, markTasks_id]
    · simp [hp]
  · intro c' hc'
    have h2 : S.current_stage = some c' := hc'
    rw [hcurnone] at h2
    exact Option.noConfusion h2
  · intro y hy
    obtain ⟨x, hx, rfl⟩ := List.mem_map.mp hy
    refine ⟨?_, ?_, fun _ => (hAT _ hy).2, ?_⟩
    · intro hrun
      exfalso
      by_cases hp : x.status = Status.pending
      · rw [if_pos hp, markTasks_status] at hrun
        exact Status.noConfusion hrun
      · rw [if_neg hp] at hrun
        exact hnorun x hx hrun
    · intro hpend2
      exfalso
      by_cases hp : x.status = Status.pending
      · rw [if_pos hp, markTasks_status] at hpend2
        exact Status.noConfusion hpend2
      · rw [if_neg hp] at hpend2
        exact hp hpend2
    · by_cases hp : x.status = Status.pending
      · simp only [if_pos hp]
        obtain ⟨hl, hd⟩ := hok x hx
        constructor
        · rw [markTasks_base, markTasks_tasks, markTasksList_length]
          exact hl
        · rw [markTasks_base, markTasks_tasks]
          exact markTasksList_skip_dyn _ _ hd
      · simp only [if_neg hp]
        exact hok x hx

theorem finalizeRun_spec (success : Bool) (now : Nat) {s : RunnerState}
    (hwf : WF s) :
    WF (finalizeRun success now s) ∧ AllTerminal (finalizeRun success now s) ∧
    (finalizeRun success now s).running = false ∧
    (finalizeRun success now s).current_stage = none := by
  obtain ⟨hn, hcur, hstages⟩ := hwf
  unfold finalizeRun
  cases hc : s.current_stage with
  | none =>
    dsimp only
    have hnorun : ∀ x ∈ s.stage_state, x.status ≠ Status.running := by
      intro x hx hr
      have h2 := (hstages x hx).1 hr
      rw [hc] at h2
      exact Option.noConfusion h2
    obtain ⟨hwfF, hATF⟩ := finalize_tail s now hn hc hnorun
      (fun x hx => (hstages x hx).2.1) (fun x hx => (hstages x hx).2.2.1)
      (fun x hx => (hstages x hx).2.2.2)
    exact ⟨hwfF, hATF, rfl, hc⟩
  | some c =>
    dsimp only
    have hfF : ∀ x : StageState,
        ((fun st : StageState =>
          let st1 := { st with
            status := if success then Status.completed else Status.failed,
            note := if success then "Finished." else "Deployment stopped." }
          if success then markTasks .complete st1 else markTasks .fail st1) x).id
          = x.id ∧
        terminalStatus ((fun st : StageState =>
          let st1 := { st with
            status := if success then Status.completed else Status.failed,
            note := if success then "Finished." else "Deployment stopped." }
          if success then markTasks .complete st1 else markTasks .fail st1) x).status ∧
        (∀ t ∈ ((fun st : StageState =>
          let st1 := { st with
            status := if success then Status.completed else Status.failed,
            note := if success then "Finished." else "Deployment stopped." }
          if success then markTasks .complete st1 else markTasks .fail st1) x).tasks,
          terminalStatus t.status) ∧
        (StageTasksOK x → StageTasksOK ((fun st : StageState =>
          let st1 := { st with
            status := if success then Status.completed else Status.failed,
            note := if success then "Finished." else "Deployment stopped." }
          if success then markTasks .complete st1 else markTasks .fail st1) x)) := by
      intro x
      cases success with
      | false =>
        simp only [Bool.false_eq_true, if_false]
        refine ⟨markTasks_id _ _, ?_, ?_, ?_⟩
        · rw [markTasks_status]
          exact Or.inr (Or.inl rfl)
        · rw [markTasks_tasks]
          exact markTasksList_fail_terminal _
        · intro ⟨hl, hd⟩
          constructor
          · rw [markTasks_base, markTasks_tasks, markTasksList_length]
            exact hl
          · rw [markTasks_base, markTasks_tasks]
            exact markTasksList_fail_dyn _ _
      | true =>
        simp only [if_true]
        refine ⟨markTasks_id _ _, ?_, ?_, ?_⟩
        · rw [markTasks_status]
          exact Or.inl rfl
        · rw [markTasks_tasks]
          exact markTasksList_complete_terminal _
        · intro ⟨hl, hd⟩
          constructor
          · rw [markTasks_base, markTasks_tasks, markTasksList_length]
            exact hl
          · rw [markTasks_base, markTasks_tasks]
            exact markTasksList_complete_dyn _ _
    have hmap := updateStage_stage_state s c (fun st : StageState =>
      let st1 := { st with
        status := if success then Status.completed else Status.failed,
        note := if success then "Finished." else "Deployment stopped." }
      if success then markTasks .complete st1 else markTasks .fail st1) hn
    have hmem' : ∀ y ∈ ({ (updateStage s c (fun st : StageState =>
        let st1 := { st with
          status := if success then Status.completed else Status.failed,
          note := if success then "Finished." else "Deployment stopped." }
        if success then markTasks .complete st1 else markTasks .fail st1))
        with current_stage := none } : RunnerState).stage_state,
        ∃ x ∈ s.stage_state, y = if x.id = c then
          (fun st : StageState =>
            let st1 := { st with
              status := if success then Status.completed else Status.failed,
              note := if success then "Finished." else "Deployment stopped." }
            if success then markTasks .complete st1 else markTasks .fail st1) x
          else x := by
      intro y hy
      have hy' : y ∈ (updateStage s c _).stage_state := hy
      rw [hmap] at hy'
      obtain ⟨x, hx, h⟩ := List.mem_map.mp hy'
      exact ⟨x, hx, h.symm⟩
    obtain ⟨hwfF, hATF⟩ := finalize_tail
      { (updateStage s c (fun st : StageState =>
          let st1 := { st with
            status := if success then Status.completed else Status.failed,
            note := if success then "Finished." else "Deployment stopped." }
          if success then markTasks .complete st1 else markTasks .fail st1))
        with current_stage := none } now
      (by
        show ((updateStage s c _).stage_state.map (fun st => st.id)).Nodup
        rw [hmap]
        exact nodup_map_update c _ (fun x => (hfF x).1) hn)
      rfl
      (by
        intro y hy
        obtain ⟨x, hx, rfl⟩ := hmem' y hy
        by_cases hxc : x.id = c
        · simp only [if_pos hxc]
          intro hr
          rcases (hfF x).2.1 with h | h | h <;> (rw [hr] at h; exact Status.noConfusion h)
        · simp only [if_neg hxc]
          intro hr
          have h2 := (hstages x hx).1 hr
          rw [hc] at h2
          have h3 : c = x.id := by
            injection h2
          exact hxc h3.symm)
      (by
        intro y hy
        obtain ⟨x, hx, rfl⟩ := hmem' y hy
        by_cases hxc : x.id = c
        · simp only [if_pos hxc]
          intro hpend2
          rcases (hfF x).2.1 with h | h | h <;>
            (rw [hpend2] at h; exact Status.noConfusion h)
        · simp only [if_neg hxc]
          exact (hstages x hx).2.1)
      (by
        intro y hy
        obtain ⟨x, hx, rfl⟩ := hmem' y hy
        by_cases hxc : x.id = c
        · simp only [if_pos hxc]
          exact fun _ => (hfF x).2.2.1
        · simp only [if_neg hxc]
          exact (hstages x hx).2.2.1)
      (by
        intro y hy
        obtain ⟨x, hx, rfl⟩ := hmem' y hy
        by_cases hxc : x.id = c
        · simp only [if_pos hxc]
          exact (hfF x).2.2.2 ((hstages x hx).2.2.2)
        · simp only [if_neg hxc]
          exact (hstages x hx).2.2.2)
    exact ⟨hwfF, hATF, rfl, rfl⟩

theorem finalizeRun_return_code (success : Bool) (now : Nat) (s : RunnerState) :
    (finalizeRun success now s).return_code = s.return_code := by
  unfold finalizeRun
  cases hc : s.current_stage <;> rfl

theorem completeStage_return_code (sid : String) (status : Status)
    (note : String) (s : RunnerState) :
    (completeStage sid status note s).return_code = s.return_code := by
  unfold completeStage
  by_cases hh : hasStageId s sid
  · rw [if_pos hh]
    dsimp only
    have key : ∀ (s1 : RunnerState), s1.return_code = s.return_code →
        (if s1.current_stage = some sid then { s1 with current_stage := none }
         else s1).return_code = s.return_code := by
      intro s1 h
      split
      · exact h
      · exact h
    exact key _ rfl
  · rw [if_neg hh]

theorem streamEnd_spec (code : Int) (now : Nat) {s : RunnerState}
    (hwf : WF s) :
    WF (streamEnd code now s) ∧ AllTerminal (streamEnd code now s) ∧
    (streamEnd code now s).running = false ∧
    (streamEnd code now s).return_code = some code := by
  obtain ⟨hn, hcur, hstages⟩ := hwf
  unfold streamEnd
  dsimp only
  by_cases hz : (code == 0) = true
  · rw [if_pos hz]
    have hwf1 : WF ({ s with return_code := some code } : RunnerState) :=
      ⟨hn, hcur, hstages⟩
    obtain ⟨h1, h2, h3, _⟩ := finalizeRun_spec (code == 0) now hwf1
    exact ⟨h1, h2, h3, by rw [finalizeRun_return_code]⟩
  · rw [if_neg hz]
    cases hc : s.current_stage with
    | none =>
      have hwf1 : WF ({ s with return_code := some code, current_stage := none } : RunnerState) := by
        refine ⟨hn, ?_, ?_⟩
        · intro c' h'
          exact Option.noConfusion h'
        · intro st hst
          have h2 := hstages st hst
          rw [hc] at h2
          exact h2
      obtain ⟨h1, h2, h3, _⟩ := finalizeRun_spec (code == 0) now hwf1
      exact ⟨h1, h2, h3, by rw [finalizeRun_return_code]⟩
    | some c =>
      have hwf1 : WF ({ s with return_code := some code, current_stage := some c } : RunnerState) := by
        refine ⟨hn, ?_, ?_⟩
        · intro c' h'
          have h2 : some c = some c' := h'
          have hcc : c = c' := by injection h2
          subst hcc
          exact hcur c hc
        · intro st hst
          have h2 := hstages st hst
          rw [hc] at h2
          exact h2
      have hwf2 : WF (appendLog ("deploy.py exited with code " ++ toString code)
          (completeStage c .failed "deploy.py exited abruptly."
            { s with return_code := some code, current_stage := some c })) :=
        wf_appendLog _ (wf_completeStage c _ _ hwf1 (Or.inr rfl))
      obtain ⟨h1, h2, h3, _⟩ := finalizeRun_spec (code == 0) now hwf2
      refine ⟨h1, h2, h3, ?_⟩
      rw [finalizeRun_return_code]
      show (completeStage c Status.failed "deploy.py exited abruptly."
        { s with return_code := some code, current_stage := some c }).return_code = some code
      rw [completeStage_return_code]

theorem wf_completeCurrent {s : RunnerState} (hwf : WF s) :
    WF (match s.current_stage with
        | some c => completeStage c .completed "Finished." s
        | none => s) := by
  cases hc : s.current_stage with
  | some c => exact wf_completeStage c _ _ hwf (Or.inl rfl)
  | none => exact hwf

theorem wf_handleTail (line : String) {s1 : RunnerState} (h1 : WF s1) :
    WF (if strContains line "Performing" && strContains (strLower line) "destroy"
        then startStage "destroy_tf"
          (if DESTROY_KEYWORDS.any (fun k => strContains line k) = true then
            recordProgressEvent "terraform_destroy" (some line)
              (if TERRAFORM_KEYWORDS.any (fun k => strContains line k) = true then
                recordProgressEvent "terraform_step" (some line) s1
              else s1)
          else
            (if TERRAFORM_KEYWORDS.any (fun k => strContains line k) = true then
              recordProgressEvent "terraform_step" (some line) s1
            else s1))
        else if strContains line "Deployment completed successfully" = true then
          appendLog "All stages completed."
            (match (if DESTROY_KEYWORDS.any (fun k => strContains line k) = true then
                recordProgressEvent "terraform_destroy" (some line)
                  (if TERRAFORM_KEYWORDS.any (fun k => strContains line k) = true then
                    recordProgressEvent "terraform_step" (some line) s1
                  else s1)
              else
                (if TERRAFORM_KEYWORDS.any (fun k => strContains line k) = true then
                  recordProgressEvent "terraform_step" (some line) s1
                else s1)).current_stage with
            | some c => completeStage c .completed "Finished."
                (if DESTROY_KEYWORDS.any (fun k => strContains line k) = true then
                  recordProgressEvent "terraform_destroy" (some line)
                    (if TERRAFORM_KEYWORDS.any (fun k => strContains line k) = true then
                      recordProgressEvent "terraform_step" (some line) s1
                    else s1)
                else
                  (if TERRAFORM_KEYWORDS.any (fun k => strContains line k) = true then
                    recordProgressEvent "terraform_step" (some line) s1
                  else s1))
            | none =>
                (if DESTROY_KEYWORDS.any (fun k => strContains line k) = true then
                  recordProgressEvent "terraform_destroy" (some line)
                    (if TERRAFORM_KEYWORDS.any (fun k => strContains line k) = true then
                      recordProgressEvent "terraform_step" (some line) s1
                    else s1)
                else
                  (if TERRAFORM_KEYWORDS.any (fun k => strContains line k) = true then
                    recordProgressEvent "terraform_step" (some line) s1
                  else s1)))
        else
          (if DESTROY_KEYWORDS.any (fun k => strContains line k) = true then
            recordProgressEvent "terraform_destroy" (some line)
              (if TERRAFORM_KEYWORDS.any (fun k => strContains line k) = true then
                recordProgressEvent "terraform_step" (some line) s1
              else s1)
          else
            (if TERRAFORM_KEYWORDS.any (fun k => strContains line k) = true then
              recordProgressEvent "terraform_step" (some line) s1
            else s1))) := by
  have h2 : WF (if TERRAFORM_KEYWORDS.any (fun k => strContains line k) = true then
      recordProgressEvent "terraform_step" (some line) s1 else s1) := by
    split
    · exact wf_recordProgressEvent _ _ h1
    · exact h1
  have h3 : WF (if DESTROY_KEYWORDS.any (fun k => strContains line k) = true then
      recordProgressEvent "terraform_destroy" (some line)
        (if TERRAFORM_KEYWORDS.any (fun k => strContains line k) = true then
          recordProgressEvent "terraform_step" (some line) s1
        else s1)
      else
        (if TERRAFORM_KEYWORDS.any (fun k => strContains line k) = true then
          recordProgressEvent "terraform_step" (some line) s1
        else s1)) := by
    split
    · exact wf_recordProgressEvent _ _ h2
    · exact h2
  split
  · exact wf_startStage _ h3
  · split
    · exact wf_completeCurrent h3
    · exact h3

theorem wf_handleLine (line : String) {s : RunnerState} (hwf : WF s) :
    WF (handleLine line s) := by
  unfold handleLine
  dsimp only
  have h1 : WF (if strContains line "TASK [" = true then
      recordProgressEvent "ansible_task" (some line) (appendLog line s)
    else appendLog line s) := by
    split
    · exact wf_recordProgressEvent _ _ (wf_appendLog line hwf)
    · exact wf_appendLog line hwf
  cases hH : findHeaderStage line HEADER_STAGE_MAP with
  | some sid => exact wf_startStage sid h1
  | none =>
    cases hA : findAnsibleEvent line ANSIBLE_STAGE_KEYWORDS with
    | some ev =>
      cases ev with
      | startEvt sid => exact wf_startStage sid h1
      | completedEvt sid => exact wf_completeStage sid _ _ h1 (Or.inl rfl)
      | failedEvt sid => exact wf_completeStage sid _ _ h1 (Or.inr rfl)
    | none => exact wf_handleTail line h1

theorem wf_applyLines (lines : List String) :
    ∀ {s : RunnerState}, WF s → WF (applyLines lines s) := by
  induction lines with
  | nil => intro s hwf; exact hwf
  | cons l ls ih => intro s hwf; exact ih (wf_handleLine l hwf)

/- ## Well-formedness of the freshly reset runner -/

theorem buildStages_ids_sublist (usage : List (String × Bool)) :
    ∀ (defs : List StageDefinition),
      ((buildStages usage defs).map (fun st => st.id)).Sublist
        (defs.map (fun d => d.id))
  | [] => by simp [buildStages]
  | d :: rest => by
    unfold buildStages
    cases hr : d.requires_role with
    | some r =>
      dsimp only
      by_cases hg : roleGet usage r = true
      · rw [if_pos hg]
        simp only [List.map_cons]
        exact List.Sublist.cons₂ _ (buildStages_ids_sublist usage rest)
      · rw [if_neg hg]
        exact List.Sublist.cons _ (buildStages_ids_sublist usage rest)
    | none =>
      dsimp only
      simp only [List.map_cons]
      exact List.Sublist.cons₂ _ (buildStages_ids_sublist usage rest)

theorem mem_buildStages (usage : List (String × Bool)) :
    ∀ (defs : List StageDefinition), ∀ st ∈ buildStages usage defs,
      ∃ d ∈ defs, st = buildStageEntry d
  | [] => by simp [buildStages]
  | d :: rest => by
    intro st hst
    unfold buildStages at hst
    cases hr : d.requires_role with
    | some r =>
      rw [hr] at hst
      dsimp only at hst
      by_cases hg : roleGet usage r = true
      · rw [if_pos hg] at hst
        rcases List.mem_cons.mp hst with h | h
        · exact ⟨d, List.mem_cons_self d rest, h⟩
        · obtain ⟨d', hd', he⟩ := mem_buildStages usage rest st h
          exact ⟨d', List.mem_cons_of_mem d hd', he⟩
      · rw [if_neg hg] at hst
        obtain ⟨d', hd', he⟩ := mem_buildStages usage rest st hst
        exact ⟨d', List.mem_cons_of_mem d hd', he⟩
    | none =>
      rw [hr] at hst
      dsimp only at hst
      rcases List.mem_cons.mp hst with h | h
      · exact ⟨d, List.mem_cons_self d rest, h⟩
      · obtain ⟨d', hd', he⟩ := mem_buildStages usage rest st h
        exact ⟨d', List.mem_cons_of_mem d hd', he⟩

theorem stageDefinitionsFor_ids_nodup (mode : String) :
    ((stageDefinitionsFor mode).map (fun d => d.id)).Nodup := by
  unfold stageDefinitionsFor
  split
  · decide
  · split
    · decide
    · simp

theorem wf_mkRunner (mode : String) (usage : List (String × Bool)) :
    WF (mkRunner mode usage) := by
  refine ⟨?_, ?_, ?_⟩
  · show ((buildStages usage (stageDefinitionsFor mode)).map
      (fun st => st.id)).Nodup
    exact List.Nodup.sublist (buildStages_ids_sublist usage _)
      (stageDefinitionsFor_ids_nodup mode)
  · intro c hcur
    exact Option.noConfusion hcur
  · intro st hst
    obtain ⟨d, _, rfl⟩ := mem_buildStages usage _ st hst
    refine ⟨?_, ?_, ?_, ?_⟩
    · intro h
      exact Status.noConfusion h
    · intro _ t ht
      obtain ⟨lab, _, rfl⟩ := List.mem_map.mp ht
      rfl
    · intro h
      rcases h with h | h | h <;> exact Status.noConfusion h
    · constructor
      · exact Nat.le_refl _
      · constructor
        · intro t ht
          rw [show (buildStageEntry d).base_task_count
              = (buildStageEntry d).tasks.length from rfl,
            List.drop_length] at ht
          cases ht
        · rw [show (buildStageEntry d).base_task_count
              = (buildStageEntry d).tasks.length from rfl,
            List.drop_length]
          simp

/- ## Supporting lemmas for the abrupt-termination claim -/

theorem completeStage_failed_stages (sid : String) (note : String)
    (s : RunnerState)
    (hn : (s.stage_state.map (fun st => st.id)).Nodup)
    (hh : hasStageId s sid) :
    (completeStage sid .failed note s).stage_state
      = s.stage_state.map (fun x => if x.id = sid then
          markTasks .fail { x with status := Status.failed, note := note }
        else x) := by
  unfold completeStage
  rw [if_pos hh]
  dsimp only
  have key : ∀ (s1 : RunnerState),
      (if s1.current_stage = some sid then { s1 with current_stage := none }
       else s1).stage_state = s1.stage_state := by
    intro s1
    split
    · rfl
    · rfl
  rw [key]
  rw [updateStage_stage_state s sid _ hn]
  apply List.map_congr_left
  intro x _
  by_cases hx : x.id = sid
  · simp only [if_pos hx]
    rfl
  · simp only [if_neg hx]

theorem completeStage_current_self (sid : String) (status : Status)
    (note : String) (s : RunnerState)
    (hcur : s.current_stage = some sid) (hh : hasStageId s sid) :
    (completeStage sid status note s).current_stage = none := by
  unfold completeStage
  rw [if_pos hh]
  dsimp only
  have key : ∀ (s1 : RunnerState), s1.current_stage = some sid →
      (if s1.current_stage = some sid then { s1 with current_stage := none }
       else s1).current_stage = none := by
    intro s1 h1
    rw [if_pos h1]
  exact key _ hcur

theorem finalizeRun_stages_of_current_none (success : Bool) (now : Nat)
    (S : RunnerState) (hc : S.current_stage = none) :
    (finalizeRun success now S).stage_state
      = S.stage_state.map (fun (st : StageState) =>
          if st.status = Status.pending then
            markTasks .skip { st with status := .skipped,
                                      note := "Not executed in this run." }
          else st) := by
  unfold finalizeRun
  rw [hc]

/- ## Logging lemmas -/

theorem appendLog_logs (l : String) (s : RunnerState) :
    (appendLog l s).logs
      = (s.logs ++ [l]).drop ((s.logs ++ [l]).length - 200) := by
  unfold appendLog
  dsimp only
  split
  · rfl
  · rename_i h
    have h0 : (s.logs ++ [l]).length - 200 = 0 := by omega
    rw [h0, List.drop_zero]

theorem lastN_append_lastN (x y : List String) :
    (x.drop (x.length - 200) ++ y).drop
        ((x.drop (x.length - 200) ++ y).length - 200)
      = (x ++ y).drop ((x ++ y).length - 200) := by
  by_cases h : x.length ≤ 200
  · have h0 : x.length - 200 = 0 := by omega
    rw [h0, List.drop_zero]
  · have hlen : (x.drop (x.length - 200)).length = 200 := by
      rw [List.length_drop]
      omega
    rw [List.drop_append_eq_append_drop, List.drop_append_eq_append_drop,
      List.drop_drop]
    have e1 : x.length - 200 + ((x.drop (x.length - 200) ++ y).length - 200)
        = (x ++ y).length - 200 := by
      simp only [List.length_append, hlen, List.length_drop]
      omega
    have e2 : (x.drop (x.length - 200) ++ y).length - 200
          - (x.drop (x.length - 200)).length
        = (x ++ y).length - 200 - x.length := by
      simp only [List.length_append, hlen, List.length_drop]
      omega
    rw [e1, e2]

theorem appendAll_logs :
    ∀ (lines : List String) (s : RunnerState), s.logs.length ≤ 200 →
      (lines.foldl (fun acc l => appendLog l acc) s).logs
        = (s.logs ++ lines).drop ((s.logs ++ lines).length - 200)
  | [], s, h => by
    simp only [List.foldl_nil, List.append_nil]
    have h0 : s.logs.length - 200 = 0 := by omega
    rw [h0, List.drop_zero]
  | l :: ls, s, h => by
    simp only [List.foldl_cons]
    have hlen2 : (appendLog l s).logs.length ≤ 200 := by
      rw [appendLog_logs, List.length_drop]
      omega
    rw [appendAll_logs ls (appendLog l s) hlen2, appendLog_logs,
      lastN_append_lastN (s.logs ++ [l]) ls, List.append_assoc]
    rfl

/- ## The claims -/

/-- C1: for every sequence of classified log lines applied from a fresh
reset — and also after the end-of-stream finalization, which runs
`_finalize_run` — at most one stage in `stage_state` has status `running`,
`current_stage` is `some c` only if a running stage with id `c` exists,
and every running stage is named by `current_stage`; so `current_stage`
is non-null iff a running stage exists, and then names it. -/
theorem c1_single_running_stage (mode : String) (usage : List (String × Bool))
    (lines : List String) (code : Int) (now : Nat) :
    RunningInvariant (applyLines lines (mkRunner mode usage)) ∧
    RunningInvariant
      (streamEnd code now (applyLines lines (mkRunner mode usage))) := by
  have hwf := wf_applyLines lines (wf_mkRunner mode usage)
  have hri : ∀ {s : RunnerState}, WF s → RunningInvariant s := by
    intro s hs
    obtain ⟨hn, hcur, hstages⟩ := hs
    refine ⟨?_, hcur, fun st hst h => (hstages st hst).1 h⟩
    cases hc : s.current_stage with
    | none =>
      have h0 : s.stage_state.countP
          (fun st => decide (st.status = Status.running)) = 0 := by
        rw [List.countP_eq_zero]
        intro x hx hp
        have h2 := (hstages x hx).1 (by simpa using hp)
        rw [hc] at h2
        exact Option.noConfusion h2
      omega
    | some c =>
      apply countP_running_le_one hn
      intro x hx hr
      have h2 := (hstages x hx).1 hr
      rw [hc] at h2
      injection h2 with h3
      exact h3.symm
  exact ⟨hri hwf, hri (streamEnd_spec code now hwf).1⟩

/-- C2: for every run, once the stream has ended and `_finalize_run` has
executed (which is when the `running` flag becomes false), no stage and no
task has status `pending` or `running`: every status is `completed`,
`failed` or `skipped`. -/
theorem c2_finalization_totality (mode : String) (usage : List (String × Bool))
    (lines : List String) (code : Int) (now : Nat) :
    (streamEnd code now (applyLines lines (mkRunner mode usage))).running
      = false ∧
    ∀ st ∈ (streamEnd code now
        (applyLines lines (mkRunner mode usage))).stage_state,
      terminalStatus st.status ∧ ∀ t ∈ st.tasks, terminalStatus t.status := by
  have hwf := wf_applyLines lines (wf_mkRunner mode usage)
  obtain ⟨_, hAT, hrunning, _⟩ := streamEnd_spec code now hwf
  exact ⟨hrunning, hAT⟩

/-- C3 counterexample: after Scenario B the k3s stage does not have
exactly two tasks — the six declared base tasks remain and the two task
markers append two additional dynamically labelled tasks, eight in all. -/
theorem c3_counterexample :
    ¬ ((stageById k3sScenarioState "k3s").map (fun st => st.tasks.length)
      = some 2) := by
  decide

/-- C3 amended: feeding `"Running Ansible K3s installation"`, the task
markers for `"Install K3s binaries"` and `"Start K3s service"`, then
`"Ansible K3s installation completed successfully"` from a fresh
deploy-mode reset with the k3s role active leaves the k3s stage
`completed` with exactly eight tasks, all `completed`: the six declared
base tasks in order, followed by the dynamically appended tasks
`"Install K3s binaries (2)"` and `"Start K3s service (2)"` in that
order. -/
theorem c3_amended_scenarioB :
    stageById k3sScenarioState "k3s" = some
      { id := "k3s", title := "K3s Installation",
        description := "Installs the lightweight Kubernetes distribution.",
        tool := ["Ansible"], progress_event := some "ansible_task",
        tasks := [
          { label := "Install K3s binaries", status := .completed },
          { label := "Start K3s service", status := .completed },
          { label := "Verify API server", status := .completed },
          { label := "Fetch kubeconfig", status := .completed },
          { label := "Update kubeconfig endpoint", status := .completed },
          { label := "Set kubeconfig permissions", status := .completed },
          { label := "Install K3s binaries (2)", status := .completed },
          { label := "Start K3s service (2)", status := .completed }],
        status := .completed, note := "Finished.", base_task_count := 6 } := by
  decide

/-- C4 counterexample: after Scenario A the terraform stage is not
`completed` — the line `"✓ No changes needed"` matches the planning task's
`keywords` before its `complete_keywords`, so nothing ever completes the
stage. -/
theorem c4_counterexample :
    ¬ ((stageById terraformScenarioState "terraform").map (fun st => st.status)
      = some Status.completed) := by
  decide

/-- C4 amended: feeding `"=== TERRAFORM DEPLOYMENT ==="`, `"Initializing"`,
`"✓ Configuration valid"`, `"Planning deployment"`, `"✓ No changes needed"`
from a fresh deploy-mode reset leaves the terraform stage still `running`
(and current), its first base task `completed`, its second base task
`running` (the `"✓ No changes needed"` line hits the planning keywords
branch, which returns before the completion branch can fire), and its
third base task `pending` — never started. -/
theorem c4_amended_scenarioA :
    stageById terraformScenarioState "terraform" = some
      { id := "terraform", title := "Terraform Deployment",
        description := "Creates or updates the Proxmox VMs through Terraform/OpenTofu.",
        tool := ["Terraform"], progress_event := some "terraform_step",
        tasks := [
          { label := "Initialize & validate", status := .completed },
          { label := "Create execution plan", status := .running },
          { label := "Apply infrastructure", status := .pending }],
        status := .running, note := "In progress...",
        base_task_count := 3 } ∧
    terraformScenarioState.current_stage = some "terraform" := by
  constructor
  · decide
  · decide

/-- C5: in any run in which a stage is active when the stream ends with
exit code 137 and no further classified lines, the finalized state has
that stage `failed`, every stage that was still `pending` now `skipped`,
`return_code = 137`, and `running = false`. -/
theorem c5_abrupt_termination (mode : String) (usage : List (String × Bool))
    (lines : List String) (c : String) (now : Nat)
    (hc : (applyLines lines (mkRunner mode usage)).current_stage = some c) :
    (streamEnd 137 now (applyLines lines (mkRunner mode usage))).running
      = false ∧
    (streamEnd 137 now (applyLines lines (mkRunner mode usage))).return_code
      = some 137 ∧
    (∃ st ∈ (streamEnd 137 now
        (applyLines lines (mkRunner mode usage))).stage_state,
      st.id = c ∧ st.status = Status.failed) ∧
    (∀ st ∈ (applyLines lines (mkRunner mode usage)).stage_state,
      st.status = Status.pending →
      ∃ st' ∈ (streamEnd 137 now
          (applyLines lines (mkRunner mode usage))).stage_state,
        st'.id = st.id ∧ st'.status = Status.skipped) := by
  have hwf := wf_applyLines lines (wf_mkRunner mode usage)
  obtain ⟨hn, hcur, hstages⟩ := hwf
  obtain ⟨stw, hmem, hid, hrun⟩ := hcur c hc
  have hspec := streamEnd_spec (s := applyLines lines (mkRunner mode usage))
    137 now ⟨hn, hcur, hstages⟩
  have hh1 : hasStageId ({ applyLines lines (mkRunner mode usage) with
      return_code := some (137 : Int) } : RunnerState) c := ⟨stw, hmem, hid⟩
  have hcs := completeStage_failed_stages c "deploy.py exited abruptly."
    { applyLines lines (mkRunner mode usage) with return_code := some (137 : Int) }
    hn hh1
  have hccur : (completeStage c .failed "deploy.py exited abruptly."
      { applyLines lines (mkRunner mode usage) with
        return_code := some (137 : Int) }).current_stage = none :=
    completeStage_current_self c .failed "deploy.py exited abruptly." _ hc hh1
  have hse : streamEnd 137 now (applyLines lines (mkRunner mode usage))
      = finalizeRun ((137 : Int) == 0) now
        (appendLog ("deploy.py exited with code " ++ toString (137 : Int))
          (completeStage c .failed "deploy.py exited abruptly."
            { applyLines lines (mkRunner mode usage) with
              return_code := some (137 : Int) })) := by
    unfold streamEnd
    dsimp only
    rw [if_neg (show ¬(((137 : Int) == 0) = true) from by decide)]
    rw [hc]
  have hfs : (streamEnd 137 now (applyLines lines (mkRunner mode usage))).stage_state
      = ((applyLines lines (mkRunner mode usage)).stage_state.map
          (fun x => if x.id = c then
            markTasks .fail { x with status := Status.failed,
                                     note := "deploy.py exited abruptly." }
          else x)).map (fun (st : StageState) =>
            if st.status = Status.pending then
              markTasks .skip { st with status := .skipped,
                                        note := "Not executed in this run." }
            else st) := by
    rw [hse]
    rw [finalizeRun_stages_of_current_none _ _ _
      (show (appendLog ("deploy.py exited with code " ++ toString (137 : Int))
        (completeStage c .failed "deploy.py exited abruptly."
          { applyLines lines (mkRunner mode usage) with
            return_code := some (137 : Int) })).current_stage = none from hccur)]
    rw [show (appendLog ("deploy.py exited with code " ++ toString (137 : Int))
        (completeStage c .failed "deploy.py exited abruptly."
          { applyLines lines (mkRunner mode usage) with
            return_code := some (137 : Int) })).stage_state
      = (completeStage c .failed "deploy.py exited abruptly."
          { applyLines lines (mkRunner mode usage) with
            return_code := some (137 : Int) }).stage_state from rfl]
    rw [hcs]
  refine ⟨hspec.2.2.1, hspec.2.2.2, ?_, ?_⟩
  · refine ⟨markTasks .fail { stw with status := Status.failed, note := "deploy.py exited abruptly." }, ?_, ?_, ?_⟩
    · rw [hfs]
      apply List.mem_map.mpr
      refine ⟨markTasks .fail { stw with status := Status.failed, note := "deploy.py exited abruptly." }, ?_, ?_⟩
      · have hm := List.mem_map_of_mem (fun x : StageState => if x.id = c then
          markTasks .fail { x with status := Status.failed, note := "deploy.py exited abruptly." }
          else x) hmem
        simpa [hid] using hm
      · have hsf : (markTasks .fail { stw with status := Status.failed, note := "deploy.py exited abruptly." }).status = Status.failed := by
          rw [markTasks_status]
        rw [if_neg (by rw [hsf]; simp)]
    · rw [markTasks_id]
      exact hid
    · rw [markTasks_status]
  · intro st hst hpendst
    have hne : st.id ≠ c := by
      intro heq
      have heqw : st = stw := stage_id_inj hn hst hmem (by rw [heq, hid])
      rw [heqw, hrun] at hpendst
      exact Status.noConfusion hpendst
    refine ⟨markTasks .skip { st with status := Status.skipped, note := "Not executed in this run." }, ?_, ?_, ?_⟩
    · rw [hfs]
      apply List.mem_map.mpr
      refine ⟨st, ?_, ?_⟩
      · have hm := List.mem_map_of_mem (fun x : StageState => if x.id = c then
          markTasks .fail { x with status := Status.failed, note := "deploy.py exited abruptly." }
          else x) hst
        simpa [hne] using hm
      · show (if st.status = Status.pending then
            markTasks .skip { st with status := .skipped, note := "Not executed in this run." }
          else st) = _
        rw [if_pos hpendst]
    · rw [markTasks_id]
    · rw [markTasks_status]

/-- Witness for C5 at a concrete input: one line starts the `nat` stage,
then the stream ends with code 137. -/
theorem c5_witness :
    ((applyLines ["Running Ansible NAT configuration"]
      (mkRunner "deploy" roleUsageKD)).current_stage = some "nat") ∧
    ((streamEnd 137 0 (applyLines ["Running Ansible NAT configuration"]
        (mkRunner "deploy" roleUsageKD))).running = false ∧
      (streamEnd 137 0 (applyLines ["Running Ansible NAT configuration"]
        (mkRunner "deploy" roleUsageKD))).return_code = some 137 ∧
      (∃ st ∈ (streamEnd 137 0 (applyLines ["Running Ansible NAT configuration"]
          (mkRunner "deploy" roleUsageKD))).stage_state,
        st.id = "nat" ∧ st.status = Status.failed) ∧
      (∀ st ∈ (applyLines ["Running Ansible NAT configuration"]
          (mkRunner "deploy" roleUsageKD)).stage_state,
        st.status = Status.pending →
        ∃ st' ∈ (streamEnd 137 0 (applyLines ["Running Ansible NAT configuration"]
            (mkRunner "deploy" roleUsageKD))).stage_state,
          st'.id = st.id ∧ st'.status = Status.skipped)) :=
  ⟨by decide, c5_abrupt_termination "deploy" roleUsageKD
    ["Running Ansible NAT configuration"] "nat" 0 (by decide)⟩

/-- C6: calling `start` while a run is active returns `False` and leaves
the runner state — every field — exactly as it was. -/
theorem c6_start_noop (mode : String) (usage : List (String × Bool))
    (now : Nat) (s : RunnerState) (h : s.running = true) :
    start mode usage now s = (false, s) := by
  unfold start
  rw [if_pos h]

/-- Witness for C6 at a concrete running state. -/
theorem c6_witness :
    ({ mkRunner "deploy" roleUsageKD with running := true } : RunnerState).running
      = true ∧
    start "deploy" roleUsageKD 0
        { mkRunner "deploy" roleUsageKD with running := true }
      = (false, { mkRunner "deploy" roleUsageKD with running := true }) :=
  ⟨rfl, c6_start_noop "deploy" roleUsageKD 0
    { mkRunner "deploy" roleUsageKD with running := true } rfl⟩

theorem buildStages_eq_spec (usage : List (String × Bool)) :
    ∀ (defs : List StageDefinition),
      buildStages usage defs
        = (defs.filter (fun d =>
            match d.requires_role with
            | none => true
            | some r => roleGet usage r)).map buildStageEntry
  | [] => rfl
  | d :: rest => by
    unfold buildStages
    cases hr : d.requires_role with
    | some r =>
      dsimp only
      by_cases hg : roleGet usage r = true
      · rw [if_pos hg, buildStages_eq_spec usage rest]
        simp [List.filter_cons, hr, hg]
      · rw [if_neg hg, buildStages_eq_spec usage rest]
        simp [List.filter_cons, hr, hg]
    | none =>
      dsimp only
      rw [buildStages_eq_spec usage rest]
      simp [List.filter_cons, hr]

/-- C7: for every valid mode and role-usage map, the reset plan is exactly
the mode's definition list filtered by `requires_role`, in declaration
order (`buildPlanSpec`, the spec-side description), and every produced
stage is `pending` with note "Waiting to start.", all tasks `pending`, and
`base_task_count` equal to the number of declared tasks.  The construction
is a pure function of `mode` and `usage`, hence deterministic. -/
theorem c7_reset_plan (mode : String) (usage : List (String × Bool))
    (_h : validMode mode) :
    (mkRunner mode usage).stage_state = buildPlanSpec mode usage ∧
    ∀ st ∈ (mkRunner mode usage).stage_state,
      st.status = Status.pending ∧ st.note = "Waiting to start." ∧
      (∀ t ∈ st.tasks, t.status = Status.pending) ∧
      st.base_task_count = st.tasks.length := by
  constructor
  · exact buildStages_eq_spec usage (stageDefinitionsFor mode)
  · intro st hst
    obtain ⟨d, _, rfl⟩ := mem_buildStages usage _ st hst
    refine ⟨rfl, rfl, ?_, rfl⟩
    intro t ht
    obtain ⟨lab, _, rfl⟩ := List.mem_map.mp ht
    rfl

/-- Witness for C7 in deploy mode with the default role usage. -/
theorem c7_witness :
    validMode "deploy" ∧
    ((mkRunner "deploy" roleUsageKD).stage_state
        = buildPlanSpec "deploy" roleUsageKD ∧
      ∀ st ∈ (mkRunner "deploy" roleUsageKD).stage_state,
        st.status = Status.pending ∧ st.note = "Waiting to start." ∧
        (∀ t ∈ st.tasks, t.status = Status.pending) ∧
        st.base_task_count = st.tasks.length) :=
  ⟨Or.inl rfl, c7_reset_plan "deploy" roleUsageKD (Or.inl rfl)⟩

/-- C8 counterexample: feeding the Terraform header twice from a fresh
deploy-mode reset calls `_mark_tasks(stage, "start")` twice and leaves the
first two base tasks of the terraform stage both `running`, so "at most
one base task is running" fails. -/
theorem c8_counterexample :
    ¬ (∀ st ∈ repeatedHeaderState.stage_state,
      ((st.tasks.take st.base_task_count).countP
        (fun t => decide (t.status = Status.running))) ≤ 1) := by
  decide

/-- C8 amended: for every stage and every sequence of classified lines
applied from a fresh reset, at most one dynamic task of that stage (index
at or beyond `base_task_count`) has status `running` at any time; the
corresponding bound for base tasks does not hold on the code. -/
theorem c8_amended_dynamic (mode : String) (usage : List (String × Bool))
    (lines : List String) :
    ∀ st ∈ (applyLines lines (mkRunner mode usage)).stage_state,
      ((st.tasks.drop st.base_task_count).countP
        (fun t => decide (t.status = Status.running))) ≤ 1 := by
  have hwf := wf_applyLines lines (wf_mkRunner mode usage)
  intro st hst
  exact ((hwf.2.2 st hst).2.2.2).2.2

/-- Witness for the amended C8 bound at the repeated-header scenario and
its first stage. -/
theorem c8_amended_witness :
    repeatedHeaderState.stage_state.headI ∈ repeatedHeaderState.stage_state ∧
    ((repeatedHeaderState.stage_state.headI.tasks.drop
        repeatedHeaderState.stage_state.headI.base_task_count).countP
      (fun t => decide (t.status = Status.running))) ≤ 1 :=
  ⟨by decide, c8_amended_dynamic "deploy" roleUsageKD
    ["=== TERRAFORM DEPLOYMENT ===", "=== TERRAFORM DEPLOYMENT ==="]
    repeatedHeaderState.stage_state.headI (by decide)⟩

/-- C9: appending any sequence of log lines to a freshly reset runner
leaves the buffer holding exactly the last 200 of them in order (all of
them, in order, when there are at most 200): the buffer is the suffix
`lines.drop (lines.length - 200)` and its length is
`min lines.length 200`. -/
theorem c9_log_bound (mode : String) (usage : List (String × Bool))
    (lines : List String) :
    (lines.foldl (fun acc l => appendLog l acc) (mkRunner mode usage)).logs
      = lines.drop (lines.length - 200) ∧
    (lines.foldl (fun acc l => appendLog l acc)
      (mkRunner mode usage)).logs.length = min lines.length 200 := by
  have h0 : (mkRunner mode usage).logs = [] := rfl
  have h := appendAll_logs lines (mkRunner mode usage)
    (by rw [h0]; simp)
  rw [h0] at h
  simp only [List.nil_append] at h
  refine ⟨h, ?_⟩
  rw [h, List.length_drop]
  omega

/-- C10: calling `start` with a mode that is not a key of
`STAGE_DEFINITIONS` while no run is active does not fail: it substitutes
the default mode "deploy", resets the plan to the deploy stages, and
returns `True`. -/
theorem c10_invalid_mode_start (mode : String) (usage : List (String × Bool))
    (now : Nat) (s : RunnerState) (h1 : s.running = false)
    (h2 : ¬ validMode mode) :
    (start mode usage now s).1 = true ∧
    (start mode usage now s).2.running = true ∧
    (start mode usage now s).2.mode = "deploy" ∧
    (start mode usage now s).2.stage_state
      = buildStages usage deployStageDefinitions := by
  unfold start
  rw [if_neg (show ¬ s.running = true by rw [h1]; simp)]
  dsimp only
  rw [if_neg h2]
  exact ⟨rfl, rfl, rfl, rfl⟩

/-- Witness for C10 at a concrete idle state and the unknown mode
"bogus". -/
theorem c10_witness :
    (mkRunner "deploy" roleUsageKD).running = false ∧ ¬ validMode "bogus" ∧
    ((start "bogus" roleUsageKD 0 (mkRunner "deploy" roleUsageKD)).1 = true ∧
      (start "bogus" roleUsageKD 0 (mkRunner "deploy" roleUsageKD)).2.running
        = true ∧
      (start "bogus" roleUsageKD 0 (mkRunner "deploy" roleUsageKD)).2.mode
        = "deploy" ∧
      (start "bogus" roleUsageKD 0 (mkRunner "deploy" roleUsageKD)).2.stage_state
        = buildStages roleUsageKD deployStageDefinitions) :=
  ⟨rfl, by decide, c10_invalid_mode_start "bogus" roleUsageKD 0
    (mkRunner "deploy" roleUsageKD) rfl (by decide)⟩

end ProxmoxWebapp
